import Mathlib

/-!
Shallow embedding of the darts match scoring engine of `ds-game-api`
(package `internal/game`, file `repository.go`).

The engine is a pure function of (configuration, seated players, ordered
throw log).  Database plumbing (pgx pools, SQL) is outside the model; the
ordered throw history that `getGameState` loads (`ORDER BY created_at ASC,
id ASC`) is modelled as a `List Throw`, timestamps as `Int` ordering keys,
and Go maps (`map[string]int`) as association lists whose lookup returns the
Go zero value `0` for a missing key.  Go's slice mutation through pointers
(`leg := &set.Legs[i]; leg.WinnerID = ...`) is modelled by functional update
of the list element at the same index.
-/

namespace DsGame

/-- `GameConfig` from `models.go`: mode, optional starting score, legs,
sets, double-out flag. -/
structure GameConfig where
  mode : String
  startingScore : Option Int
  legs : Int
  sets : Int
  doubleOut : Bool
  deriving Repr, DecidableEq

/-- `GamePlayer`: identity, display name, fixed seat. -/
structure GamePlayer where
  id : String
  name : String
  seat : Int
  deriving Repr, DecidableEq

/-- `Throw`: one recorded visit.  `createdAt` models the `TIMESTAMPTZ`
creation time as an integer ordering key. -/
structure Throw where
  id : String
  gameId : String
  playerId : String
  visitScore : Int
  dartsThrown : Int
  createdAt : Int
  deriving Repr, DecidableEq

/-- `CreateThrowRequest`: the payload `AddThrow` validates. -/
structure CreateThrowRequest where
  playerId : String
  visitScore : Int
  dartsThrown : Int
  deriving Repr, DecidableEq

/-- `CreateGameRequest`: configuration plus the ordered player id list. -/
structure CreateGameRequest where
  config : GameConfig
  playerIds : List String
  deriving Repr, DecidableEq

/-- `PlayerScore`: the per-player derived display record. -/
structure PlayerScore where
  playerId : String
  remaining : Option Int
  lastVisit : Option Int
  lastThree : Option (List Int)
  deriving Repr, DecidableEq

/-- `LegScore`: one leg; `scoresByPlayer` is the Go `map[string]int`
(player id to remaining), modelled as an association list. -/
structure LegScore where
  legNumber : Int
  startingScore : Int
  scoresByPlayer : List (String × Int)
  winnerId : Option String
  finishedAt : Option Int
  deriving Repr, DecidableEq

/-- `SetScore`: one set, an ordered list of legs. -/
structure SetScore where
  setNumber : Int
  legsToWin : Int
  legs : List LegScore
  winnerId : Option String
  finishedAt : Option Int
  deriving Repr, DecidableEq

/-- `MatchScore`: the whole match tree with the current set/leg pointers. -/
structure MatchScore where
  setsToWin : Int
  currentSetIndex : Nat
  currentLegIndex : Nat
  sets : List SetScore
  deriving Repr, DecidableEq

/-- Go map read `m[k]` for a `map[string]int`: the zero value `0` when the
key is absent. -/
def lookupScore (m : List (String × Int)) (k : String) : Int :=
  match m.find? (fun p => p.1 = k) with
  | some p => p.2
  | none => 0

/-- Go map write `m[k] = v`: replace the binding if present, else add it. -/
def insertScore (m : List (String × Int)) (k : String) (v : Int) :
    List (String × Int) :=
  if m.any (fun p => p.1 = k) then
    m.map (fun p => if p.1 = k then (k, v) else p)
  else
    m ++ [(k, v)]

/-- The Go `newScoresByPlayer` / `initialScoresByPlayer` loops: one binding
per player, each set to the starting score. -/
def initScoresMap (players : List GamePlayer) (start : Int) :
    List (String × Int) :=
  players.foldl (fun m p => insertScore m p.id start) []

/-- Go slice read `l[n]` with an explicit default for the (unreachable)
out-of-bounds case. -/
def nth {α : Type} (l : List α) (n : Nat) (d : α) : α :=
  match l.get? n with
  | some a => a
  | none => d

/-- Placeholder leg for out-of-bounds reads (never hit on engine states). -/
def defaultLeg : LegScore :=
  { legNumber := 0, startingScore := 0, scoresByPlayer := []
    winnerId := none, finishedAt := none }

/-- Placeholder set for out-of-bounds reads (never hit on engine states). -/
def defaultSet : SetScore :=
  { setNumber := 0, legsToWin := 0, legs := [], winnerId := none
    finishedAt := none }

/-- `match.Sets[match.CurrentSetIndex]`. -/
def currentSetOf (m : MatchScore) : SetScore :=
  nth m.sets m.currentSetIndex defaultSet

/-- `set.Legs[match.CurrentLegIndex]` of the current set. -/
def currentLegOf (m : MatchScore) : LegScore :=
  nth (currentSetOf m).legs m.currentLegIndex defaultLeg

/-- `computeLegsWonInSet` restricted to one player: the count
`wins[pid]` of legs of the set sealed with winner `pid`. -/
def legsWonFor (s : SetScore) (pid : String) : Int :=
  ((s.legs.filter (fun l => l.winnerId = some pid)).length : Int)

/-- `computeSetsWon` restricted to one player: the count `wins[pid]` of
sets of the match sealed with winner `pid`. -/
def setsWonFor (m : MatchScore) (pid : String) : Int :=
  ((m.sets.filter (fun s => s.winnerId = some pid)).length : Int)

/-- A freshly opened leg: given number, starting score, everyone at the
starting score, unsealed (the `newLeg` literals of `startNextLegOrSet` and
the `firstLeg` of `computeScores`). -/
def freshLeg (num start : Int) (players : List GamePlayer) : LegScore :=
  { legNumber := num, startingScore := start
    scoresByPlayer := initScoresMap players start
    winnerId := none, finishedAt := none }

/-- The new set `startNextLegOrSet` appends when the current set is
sealed: next set number, same legs-to-win, one fresh leg. -/
def newSetAfter (m : MatchScore) (start : Int)
    (players : List GamePlayer) : SetScore :=
  { setNumber := (m.sets.length : Int) + 1
    legsToWin := (currentSetOf m).legsToWin
    legs := [freshLeg 1 start players]
    winnerId := none, finishedAt := none }

/-- The current set extended by one fresh leg (the new-leg branch of
`startNextLegOrSet`). -/
def extendedSet (m : MatchScore) (start : Int)
    (players : List GamePlayer) : SetScore :=
  { currentSetOf m with
      legs := (currentSetOf m).legs ++
        [freshLeg (((currentSetOf m).legs.length : Int) + 1) start players] }

/-- `startNextLegOrSet`: open a new set when the current set is sealed,
otherwise a new leg in the same set; fresh scores either way.  No-op for an
empty player list, as in the source guard. -/
def startNextLegOrSet (m : MatchScore) (start : Int)
    (players : List GamePlayer) : MatchScore :=
  if players.isEmpty then m
  else if (currentSetOf m).winnerId.isSome then
    { m with sets := m.sets ++ [newSetAfter m start players]
             currentSetIndex :=
               (m.sets ++ [newSetAfter m start players]).length - 1
             currentLegIndex := 0 }
  else
    { m with sets := m.sets.set m.currentSetIndex
               (extendedSet m start players)
             currentLegIndex := (extendedSet m start players).legs.length - 1 }

/-- Write-through of `leg.ScoresByPlayer[pid] = v` on the current leg. -/
def setCurrentLegScore (m : MatchScore) (pid : String) (v : Int) :
    MatchScore :=
  let s := currentSetOf m
  let l := currentLegOf m
  let l2 := { l with scoresByPlayer := insertScore l.scoresByPlayer pid v }
  let s2 := { s with legs := s.legs.set m.currentLegIndex l2 }
  { m with sets := m.sets.set m.currentSetIndex s2 }

/-- Write-through of `leg.WinnerID = &winner; leg.FinishedAt = &now` on the
current leg. -/
def sealCurrentLeg (m : MatchScore) (pid : String) (ts : Int) : MatchScore :=
  let s := currentSetOf m
  let l := currentLegOf m
  let l2 := { l with winnerId := some pid, finishedAt := some ts }
  let s2 := { s with legs := s.legs.set m.currentLegIndex l2 }
  { m with sets := m.sets.set m.currentSetIndex s2 }

/-- Write-through of `set.WinnerID = &winner; set.FinishedAt = &now` on the
current set. -/
def sealCurrentSet (m : MatchScore) (pid : String) (ts : Int) : MatchScore :=
  let s := currentSetOf m
  let s2 := { s with winnerId := some pid, finishedAt := some ts }
  { m with sets := m.sets.set m.currentSetIndex s2 }

/-- The Go `playerIndex` map built by `for i, p := range players
{ playerIndex[p.ID] = i }`, then looked up: the index of the LAST player
with the given id (later map writes win), `none` when absent. -/
def playerIndexOf (players : List GamePlayer) (pid : String) : Option Nat :=
  (players.foldl
    (fun (acc : Option Nat × Nat) p =>
      (if p.id = pid then some acc.2 else acc.1, acc.2 + 1))
    (none, 0)).1

/-- The per-player mutable replay state of `computeScores`:
the match tree, the `remaining []int` slice, the `scores []PlayerScore`
slice and the `matchWinnerID` variable. -/
structure ReplayState where
  ms : MatchScore
  remaining : List Int
  scores : List PlayerScore
  matchWinnerId : Option String
  deriving Repr, DecidableEq

/-- Initial `scores` entries for X01 (lines 547-554): remaining = start,
no last visit. -/
def initPlayerScores (players : List GamePlayer) (start : Int) :
    List PlayerScore :=
  players.map (fun p =>
    { playerId := p.id, remaining := some start, lastVisit := none
      lastThree := none })

/-- The initial match structure: one set (number 1) holding one leg
(number 1), everyone at the starting score. -/
def initMatchScore (players : List GamePlayer)
    (start legsToWin setsToWin : Int) : MatchScore :=
  { setsToWin := setsToWin, currentSetIndex := 0, currentLegIndex := 0
    sets := [{ setNumber := 1, legsToWin := legsToWin
               legs := [freshLeg 1 start players]
               winnerId := none, finishedAt := none }] }

/-- Replay state before any throw is replayed. -/
def initReplayState (players : List GamePlayer)
    (start legsToWin setsToWin : Int) : ReplayState :=
  { ms := initMatchScore players start legsToWin setsToWin
    remaining := players.map (fun _ => start)
    scores := initPlayerScores players start
    matchWinnerId := none }

/-- The per-new-leg reset loop (lines 578-585 and 641-647): remaining back
to start, last visit cleared. -/
def resetScoresForNewLeg (scores : List PlayerScore) (start : Int) :
    List PlayerScore :=
  scores.map (fun s =>
    { s with remaining := some start, lastVisit := none, lastThree := none })

/-- `scores[idx].LastVisit = &visit; scores[idx].Remaining = &v` after an
accepted visit. -/
def updatePlayerScoreAt (scores : List PlayerScore) (idx : Nat)
    (visit rem : Int) : List PlayerScore :=
  match scores.get? idx with
  | none => scores
  | some s => scores.set idx { s with lastVisit := some visit
                                      remaining := some rem }

/-- Lines 588-595: the player's current remaining in the open leg, with the
defensive fall-backs (map value `0` falls back to `remaining[idx]`, which
falls back to the starting score). -/
def curRemainingOf (st : ReplayState) (pid : String) (idx : Nat)
    (start : Int) : Int :=
  let cur0 := lookupScore (currentLegOf st.ms).scoresByPlayer pid
  if cur0 = 0 then
    let r := nth st.remaining idx 0
    if r = 0 then start else r
  else cur0

/-- The advance past an already-sealed current leg (lines 573-586): open
the next leg or set and reset every player's remaining and last visit. -/
def advanceSealedLeg (players : List GamePlayer) (start : Int)
    (st : ReplayState) : ReplayState :=
  { ms := startNextLegOrSet st.ms start players
    remaining := st.remaining.map (fun _ => start)
    scores := resetScoresForNewLeg st.scores start
    matchWinnerId := st.matchWinnerId }

/-- The scoring part of one replay iteration (lines 588-650), after the
sealed-leg advance: bust or accept the visit, and on an exact checkout
seal leg / set / match and eagerly advance. -/
def stepThrowCore (cfg : GameConfig) (players : List GamePlayer)
    (start : Int) (st1 : ReplayState) (t : Throw) (idx : Nat) :
    ReplayState :=
  let cand := curRemainingOf st1 t.playerId idx start - t.visitScore
  if cand < 0 ∨ (cfg.doubleOut ∧ cand = 1) then st1
  else
    let ms1 := setCurrentLegScore st1.ms t.playerId cand
    let rem1 := st1.remaining.set idx cand
    let sc1 := updatePlayerScoreAt st1.scores idx t.visitScore cand
    if cand = 0 then
      let ms2 := sealCurrentLeg ms1 t.playerId t.createdAt
      if legsWonFor (currentSetOf ms2) t.playerId ≥
          (currentSetOf ms2).legsToWin then
        let ms3 := sealCurrentSet ms2 t.playerId t.createdAt
        if setsWonFor ms3 t.playerId ≥ ms3.setsToWin then
          { ms := ms3, remaining := rem1, scores := sc1
            matchWinnerId := some t.playerId }
        else
          { ms := startNextLegOrSet ms3 start players
            remaining := rem1.map (fun _ => start)
            scores := resetScoresForNewLeg sc1 start
            matchWinnerId := none }
      else
        { ms := startNextLegOrSet ms2 start players
          remaining := rem1.map (fun _ => start)
          scores := resetScoresForNewLeg sc1 start
          matchWinnerId := none }
    else
      { ms := ms1, remaining := rem1, scores := sc1
        matchWinnerId := st1.matchWinnerId }

/-- One iteration of the replay loop of `computeScores` (lines 558-650):
skip after a match winner, skip unknown players, advance past a sealed leg,
then apply the scoring core. -/
def stepThrow (cfg : GameConfig) (players : List GamePlayer) (start : Int)
    (st : ReplayState) (t : Throw) : ReplayState :=
  if st.matchWinnerId.isSome then st
  else
    match playerIndexOf players t.playerId with
    | none => st
    | some idx =>
      stepThrowCore cfg players start
        (if (currentLegOf st.ms).winnerId.isSome then
          advanceSealedLeg players start st
        else st) t idx

/-- Full replay of the history from the initial state. -/
def replayHistory (cfg : GameConfig) (players : List GamePlayer)
    (start legsToWin setsToWin : Int) (history : List Throw) : ReplayState :=
  history.foldl (stepThrow cfg players start)
    (initReplayState players start legsToWin setsToWin)

/-- First seat's id; `""` only for an empty player list. -/
def headPlayerId (players : List GamePlayer) : String :=
  match players with
  | [] => ""
  | p :: _ => p.id

/-- `players[n].ID`; `""` only out of bounds (unreachable). -/
def playerIdAt (players : List GamePlayer) (n : Nat) : String :=
  match players.get? n with
  | some p => p.id
  | none => ""

/-- The current-player rule (lines 489-499 and 656-667, identical in both
mode branches): first seat on an empty log, else the seat after the most
recent thrower, wrapping modulo the player count. -/
def currentPlayerOf (players : List GamePlayer) (history : List Throw) :
    String :=
  match history.getLast? with
  | none => headPlayerId players
  | some last =>
    match playerIndexOf players last.playerId with
    | none => headPlayerId players
    | some i => playerIdAt players ((i + 1) % players.length)

/-- Line 507-510: the effective X01 starting score, defaulting to 501 when
the configuration has none. -/
def effectiveStartingScore (cfg : GameConfig) : Int :=
  match cfg.startingScore with
  | some s => s
  | none => 501

/-- Lines 512-519: thresholds clamped to at least 1 during reconstruction. -/
def effectiveLegsToWin (cfg : GameConfig) : Int :=
  if cfg.legs ≤ 0 then 1 else cfg.legs

/-- Lines 516-519. -/
def effectiveSetsToWin (cfg : GameConfig) : Int :=
  if cfg.sets ≤ 0 then 1 else cfg.sets

/-- The derived fields `computeScores` writes into the game state. -/
structure ComputedState where
  scores : List PlayerScore
  currentPlayerId : String
  matchScore : Option MatchScore
  winnerId : Option String
  deriving Repr, DecidableEq

/-- `computeScores`: empty player list clears everything; non-X01 modes get
bare score records and turn rotation only; X01 replays the log.
`prevWinnerId` is the `WinnerID` already on the state (only the X01 branch
overwrites it). -/
def computeScores (cfg : GameConfig) (players : List GamePlayer)
    (history : List Throw) (prevWinnerId : Option String) : ComputedState :=
  if players.isEmpty then
    { scores := [], currentPlayerId := "", matchScore := none
      winnerId := prevWinnerId }
  else if cfg.mode ≠ "X01" then
    { scores := players.map (fun p =>
        { playerId := p.id, remaining := none, lastVisit := none
          lastThree := none })
      currentPlayerId := currentPlayerOf players history
      matchScore := none, winnerId := prevWinnerId }
  else
    let start := effectiveStartingScore cfg
    let fin := replayHistory cfg players start (effectiveLegsToWin cfg)
      (effectiveSetsToWin cfg) history
    { scores := fin.scores
      currentPlayerId := currentPlayerOf players history
      matchScore := some fin.ms
      winnerId := fin.matchWinnerId }

/-- Go's `strings.TrimSpace`: drop whitespace from both ends.  (Defined
structurally over the character list so that concrete instances reduce;
`Char.isWhitespace` stands for Go's Unicode space class.) -/
def trimSpace (s : String) : String :=
  String.mk
    (((s.data.dropWhile Char.isWhitespace).reverse.dropWhile
        Char.isWhitespace).reverse)

/-- `AddThrow` (lines 272-330), modelled on the data the repository loads:
the persisted `status` column, the seated players, and the ordered history.
`newId`/`now`/`gameId` stand for the id, creation time and game reference
the database assigns on insert; the reloaded history is the old history
with the new throw appended (its creation time is the latest). -/
def addThrow (status : String) (cfg : GameConfig)
    (players : List GamePlayer) (history : List Throw)
    (req : CreateThrowRequest) (newId gameId : String) (now : Int) :
    Except String (List Throw) :=
  let pid := trimSpace req.playerId
  if pid = "" then Except.error "playerId is required"
  else if req.dartsThrown < 1 ∨ req.dartsThrown > 3 then
    Except.error "dartsThrown must be between 1 and 3"
  else if req.visitScore < 0 ∨ req.visitScore > 180 then
    Except.error "visitScore must be between 0 and 180"
  else if status = "finished" then
    Except.error "game is already finished"
  else if ¬ players.any (fun p => p.id = pid) then
    Except.error "player is not part of this game"
  else
    let currentPlayerId := (computeScores cfg players history none).currentPlayerId
    if currentPlayerId ≠ "" ∧ currentPlayerId ≠ pid then
      Except.error "not this player's turn"
    else
      Except.ok (history ++ [{ id := newId, gameId := gameId, playerId := pid
                               visitScore := req.visitScore
                               dartsThrown := req.dartsThrown
                               createdAt := now }])

/-- `a` is strictly older than `b` under the (creation time, identity)
ordering key of the throws table. -/
def throwBefore (a b : Throw) : Prop :=
  a.createdAt < b.createdAt ∨ (a.createdAt = b.createdAt ∧ a.id < b.id)

instance (a b : Throw) : Decidable (throwBefore a b) := by
  unfold throwBefore
  infer_instance

/-- The `ORDER BY created_at DESC, id DESC LIMIT 1` comparison: pick the
more recent of two throws under the (creation time, identity) key. -/
def laterThrow (a b : Throw) : Throw :=
  if throwBefore a b then b else a

/-- The single row `UndoLastThrow` selects: the most recent throw under the
(creation time, identity) ordering, `none` on an empty log. -/
def lastThrowOf (history : List Throw) : Option Throw :=
  match history with
  | [] => none
  | t :: ts => some (ts.foldl laterThrow t)

/-- `UndoLastThrow` (lines 333-368): deletes the selected row by id
(`DELETE FROM throws WHERE id = $1`; ids are unique, so one row), or fails
on an empty log. -/
def undoLastThrow (history : List Throw) : Except String (List Throw) :=
  match lastThrowOf history with
  | none => Except.error "no throws to undo"
  | some t => Except.ok (history.eraseP (fun x => x.id = t.id))

/-- The validation half of `CreateGame` (lines 28-42) together with the row
it inserts: the trimmed mode and the otherwise untouched configuration. -/
def validateCreateGame (req : CreateGameRequest) :
    Except String GameConfig :=
  if req.playerIds.isEmpty then
    Except.error "at least one player is required"
  else
    let mode := trimSpace req.config.mode
    if mode = "" then Except.error "mode is required"
    else if req.config.legs ≤ 0 then Except.error "legs must be > 0"
    else if req.config.sets ≤ 0 then Except.error "sets must be > 0"
    else Except.ok { req.config with mode := mode }

/-- The winner search of `syncGameStatus` (lines 676-698).  With a match
tree it ranges over the keys of `computeSetsWon` — the players who sealed
at least one set — for one whose count reaches `SetsToWin` (Go map order is
unspecified; at most one key can qualify on engine-produced trees, so the
first qualifying set winner in set order is the same player).  Without a
tree it scans `Scores` for a remaining of exactly 0. -/
def deriveWinner (matchScore : Option MatchScore)
    (scores : List PlayerScore) : Option String :=
  match matchScore with
  | some m =>
    (m.sets.filterMap (fun s => s.winnerId)).find?
      (fun pid => setsWonFor m pid ≥ m.setsToWin)
  | none =>
    (scores.find? (fun s => s.remaining = some 0)).map (fun s => s.playerId)

/-- The lifecycle priority ladder of `syncGameStatus` (lines 700-707). -/
def deriveLifecycle (winnerId : Option String) (history : List Throw) :
    String :=
  if winnerId.isSome then "finished"
  else if history.length > 0 then "in_progress"
  else "pending"

/-- Result of one `syncGameStatus` run: the resulting status/winner fields
and whether an `UPDATE` was issued. -/
structure SyncResult where
  status : String
  winnerId : Option String
  persisted : Bool
  deriving Repr, DecidableEq

/-- `syncGameStatus` (lines 675-732): derive (lifecycle, winner) and skip
the `UPDATE` when both already match the stored values (`sameWinner` is
Option equality: both nil, or both non-nil and equal). -/
def syncGameStatus (storedStatus : String) (storedWinnerId : Option String)
    (matchScore : Option MatchScore) (scores : List PlayerScore)
    (history : List Throw) : SyncResult :=
  let winnerId := deriveWinner matchScore scores
  let newStatus := deriveLifecycle winnerId history
  if newStatus = storedStatus ∧ storedWinnerId = winnerId then
    { status := storedStatus, winnerId := storedWinnerId, persisted := false }
  else
    { status := newStatus, winnerId := winnerId, persisted := true }

/-- Example player (seat 1) for concrete instances. -/
def exA : GamePlayer := { id := "A", name := "Alice", seat := 1 }

/-- Example player (seat 2) for concrete instances. -/
def exB : GamePlayer := { id := "B", name := "Bob", seat := 2 }

/-- Example X01 configuration, 501 double-out, one leg, one set. -/
def exCfg501 : GameConfig :=
  { mode := "X01", startingScore := some 501, legs := 1, sets := 1
    doubleOut := true }

/-- Example X01 configuration with a short 40-point leg, no double-out. -/
def exCfg40 : GameConfig :=
  { mode := "X01", startingScore := some 40, legs := 1, sets := 1
    doubleOut := false }

/-- Example throw constructor for concrete instances. -/
def exThrow (tid : String) (ts : Int) (pid : String) (v : Int) : Throw :=
  { id := tid, gameId := "g1", playerId := pid, visitScore := v
    dartsThrown := 3, createdAt := ts }

/-- Structural sanity of the replay pointers: the current set and current
leg indexes address real entries of the tree. -/
def IdxValid (st : ReplayState) : Prop :=
  st.ms.currentSetIndex < st.ms.sets.length ∧
  st.ms.currentLegIndex < (currentSetOf st.ms).legs.length

/-- Every tracked per-player value — the `remaining` slice and the current
leg's score map — satisfies `P`. -/
def ValsP (P : Int → Prop) (st : ReplayState) : Prop :=
  (∀ v ∈ st.remaining, P v) ∧
  (∀ q ∈ (currentLegOf st.ms).scoresByPlayer, P q.2)

/-!
### Theorems

First a layer of small lemmas about the list operations of the model, then
one theorem per claim (with its witness or counterexample).
-/

/-- `nth` at the length of the prefix of a one-element append. -/
theorem nth_concat_length {α : Type} (l : List α) (x d : α) :
    nth (l ++ [x]) l.length d = x := by
  unfold nth
  rw [List.get?_eq_getElem?, List.getElem?_concat_length]

/-- `nth` below the left length ignores an appended tail. -/
theorem nth_append_left {α : Type} (l l2 : List α) (n : Nat) (d : α)
    (h : n < l.length) : nth (l ++ l2) n d = nth l n d := by
  unfold nth
  rw [List.get?_eq_getElem?, List.get?_eq_getElem?,
    List.getElem?_append_left h]

/-- `nth` of an in-bounds `List.set` at the same index. -/
theorem nth_set_self {α : Type} (l : List α) (n : Nat) (b d : α)
    (h : n < l.length) : nth (l.set n b) n d = b := by
  unfold nth
  rw [List.get?_eq_getElem?, List.getElem?_set_self h]

/-- `nth` is the default or a member. -/
theorem nth_mem {α : Type} (l : List α) (n : Nat) (d : α) :
    nth l n d = d ∨ nth l n d ∈ l := by
  unfold nth
  cases hg : l.get? n with
  | none => exact Or.inl rfl
  | some a => exact Or.inr (List.get?_mem hg)

/-- A member of `insertScore m k v` carries the value `v` or was already a
member. -/
theorem mem_insertScore (m : List (String × Int)) (k : String) (v : Int)
    (q : String × Int) (hq : q ∈ insertScore m k v) :
    q.2 = v ∨ q ∈ m := by
  unfold insertScore at hq
  split at hq
  · rw [List.mem_map] at hq
    obtain ⟨p, hp, he⟩ := hq
    by_cases hpk : p.1 = k
    · rw [if_pos hpk] at he
      exact Or.inl (by rw [← he])
    · rw [if_neg hpk] at he
      exact Or.inr (he ▸ hp)
  · rw [List.mem_append] at hq
    rcases hq with hq | hq
    · exact Or.inr hq
    · rw [List.mem_singleton] at hq
      exact Or.inl (by rw [hq])

/-- Auxiliary: folding `insertScore … start` over players over a map of
`start` values yields only `start` values. -/
theorem mem_initScoresMap_aux (players : List GamePlayer) (start : Int) :
    ∀ m0 : List (String × Int), (∀ q ∈ m0, q.2 = start) →
      ∀ q ∈ players.foldl (fun m p => insertScore m p.id start) m0,
        q.2 = start := by
  induction players with
  | nil =>
    intro m0 h0 q hq
    exact h0 q hq
  | cons p ps ih =>
    intro m0 h0 q hq
    rw [List.foldl_cons] at hq
    refine ih (insertScore m0 p.id start) ?_ q hq
    intro r hr
    rcases mem_insertScore _ _ _ _ hr with h | h
    · exact h
    · exact h0 r h

/-- Every value of a fresh score map is the starting score. -/
theorem mem_initScoresMap (players : List GamePlayer) (start : Int)
    (q : String × Int) (hq : q ∈ initScoresMap players start) :
    q.2 = start :=
  mem_initScoresMap_aux players start [] (by intro r hr; cases hr) q hq

/-- A map lookup is the zero default or the value of some binding. -/
theorem lookupScore_cases (m : List (String × Int)) (k : String) :
    lookupScore m k = 0 ∨ ∃ q ∈ m, q.2 = lookupScore m k := by
  unfold lookupScore
  cases hf : m.find? (fun p => p.1 = k) with
  | none => exact Or.inl rfl
  | some p => exact Or.inr ⟨p, List.mem_of_find?_eq_some hf, rfl⟩

/-- In the new-set branch the current set of the result is the appended
set. -/
theorem currentSet_newSet_branch (m : MatchScore) (start : Int)
    (players : List GamePlayer) :
    currentSetOf
      { m with sets := m.sets ++ [newSetAfter m start players]
               currentSetIndex :=
                 (m.sets ++ [newSetAfter m start players]).length - 1
               currentLegIndex := 0 } = newSetAfter m start players := by
  unfold currentSetOf
  simp only [List.length_append, List.length_singleton,
    Nat.add_sub_cancel]
  exact nth_concat_length _ _ _

/-- In the new-leg branch the current set of the result is the extended
set. -/
theorem currentSet_newLeg_branch (m : MatchScore) (start : Int)
    (players : List GamePlayer)
    (hm : m.currentSetIndex < m.sets.length) :
    currentSetOf
      { m with sets := m.sets.set m.currentSetIndex
                 (extendedSet m start players)
               currentLegIndex :=
                 (extendedSet m start players).legs.length - 1 } =
      extendedSet m start players := by
  unfold currentSetOf
  exact nth_set_self _ _ _ _ hm

/-- After `startNextLegOrSet` with a non-empty player list and an
in-bounds current set, the pointers are in bounds again and the current
leg is fresh: unsealed, all scores at the starting score. -/
theorem startNext_fresh (m : MatchScore) (start : Int)
    (players : List GamePlayer) (hp : players ≠ [])
    (hm : m.currentSetIndex < m.sets.length) :
    (startNextLegOrSet m start players).currentSetIndex <
        (startNextLegOrSet m start players).sets.length
    ∧ (startNextLegOrSet m start players).currentLegIndex <
        (currentSetOf (startNextLegOrSet m start players)).legs.length
    ∧ (currentLegOf (startNextLegOrSet m start players)).scoresByPlayer =
        initScoresMap players start
    ∧ (currentLegOf (startNextLegOrSet m start players)).winnerId = none := by
  have hpe : players.isEmpty = false := by
    cases players with
    | nil => exact absurd rfl hp
    | cons a l => rfl
  unfold startNextLegOrSet
  rw [hpe]
  simp only [Bool.false_eq_true, if_false]
  by_cases hws : (currentSetOf m).winnerId.isSome
  · rw [if_pos hws]
    rw [show currentLegOf
        { m with sets := m.sets ++ [newSetAfter m start players]
                 currentSetIndex :=
                   (m.sets ++ [newSetAfter m start players]).length - 1
                 currentLegIndex := 0 } =
        freshLeg 1 start players from by
      unfold currentLegOf
      rw [currentSet_newSet_branch]
      rfl]
    rw [currentSet_newSet_branch]
    refine ⟨by simp, by simp [newSetAfter], rfl, rfl⟩
  · rw [if_neg hws]
    have hll : (extendedSet m start players).legs.length =
        (currentSetOf m).legs.length + 1 := by
      unfold extendedSet
      simp
    rw [show currentLegOf
        { m with sets := m.sets.set m.currentSetIndex
                   (extendedSet m start players)
                 currentLegIndex :=
                   (extendedSet m start players).legs.length - 1 } =
        freshLeg (((currentSetOf m).legs.length : Int) + 1) start players
        from by
      unfold currentLegOf
      rw [currentSet_newLeg_branch m start players hm, hll,
        Nat.add_sub_cancel]
      unfold extendedSet
      exact nth_concat_length _ _ _]
    rw [currentSet_newLeg_branch m start players hm]
    refine ⟨by simpa using hm, by rw [hll]; simp, rfl, rfl⟩

/-- Index bookkeeping and current-leg shape of `setCurrentLegScore`. -/
theorem setCurrentLegScore_spec (m : MatchScore) (pid : String) (v : Int)
    (h1 : m.currentSetIndex < m.sets.length)
    (h2 : m.currentLegIndex < (currentSetOf m).legs.length) :
    (setCurrentLegScore m pid v).currentSetIndex = m.currentSetIndex
    ∧ (setCurrentLegScore m pid v).currentLegIndex = m.currentLegIndex
    ∧ (setCurrentLegScore m pid v).sets.length = m.sets.length
    ∧ currentSetOf (setCurrentLegScore m pid v) =
        { currentSetOf m with
            legs := (currentSetOf m).legs.set m.currentLegIndex
              ({ currentLegOf m with
                  scoresByPlayer :=
                    insertScore (currentLegOf m).scoresByPlayer pid v }) }
    ∧ currentLegOf (setCurrentLegScore m pid v) =
        { currentLegOf m with
            scoresByPlayer :=
              insertScore (currentLegOf m).scoresByPlayer pid v }
    ∧ (currentSetOf (setCurrentLegScore m pid v)).winnerId =
        (currentSetOf m).winnerId
    ∧ (currentSetOf (setCurrentLegScore m pid v)).legsToWin =
        (currentSetOf m).legsToWin
    ∧ (currentSetOf (setCurrentLegScore m pid v)).legs.length =
        (currentSetOf m).legs.length := by
  have hcs : currentSetOf (setCurrentLegScore m pid v) =
      { currentSetOf m with
          legs := (currentSetOf m).legs.set m.currentLegIndex
            ({ currentLegOf m with
                scoresByPlayer :=
                  insertScore (currentLegOf m).scoresByPlayer pid v }) } := by
    unfold setCurrentLegScore currentSetOf
    exact nth_set_self _ _ _ _ h1
  refine ⟨rfl, rfl, by simp [setCurrentLegScore], hcs, ?_,
    by rw [hcs], by rw [hcs], by rw [hcs]; simp⟩
  unfold currentLegOf
  rw [show (setCurrentLegScore m pid v).currentLegIndex =
    m.currentLegIndex from rfl, hcs]
  exact nth_set_self _ _ _ _ h2

/-- Index bookkeeping and current-leg shape of `sealCurrentLeg`. -/
theorem sealCurrentLeg_spec (m : MatchScore) (pid : String) (ts : Int)
    (h1 : m.currentSetIndex < m.sets.length)
    (h2 : m.currentLegIndex < (currentSetOf m).legs.length) :
    (sealCurrentLeg m pid ts).currentSetIndex = m.currentSetIndex
    ∧ (sealCurrentLeg m pid ts).currentLegIndex = m.currentLegIndex
    ∧ (sealCurrentLeg m pid ts).sets.length = m.sets.length
    ∧ currentSetOf (sealCurrentLeg m pid ts) =
        { currentSetOf m with
            legs := (currentSetOf m).legs.set m.currentLegIndex
              ({ currentLegOf m with
                  winnerId := some pid, finishedAt := some ts }) }
    ∧ currentLegOf (sealCurrentLeg m pid ts) =
        { currentLegOf m with
            winnerId := some pid, finishedAt := some ts }
    ∧ (currentSetOf (sealCurrentLeg m pid ts)).winnerId =
        (currentSetOf m).winnerId
    ∧ (currentSetOf (sealCurrentLeg m pid ts)).legsToWin =
        (currentSetOf m).legsToWin
    ∧ (currentSetOf (sealCurrentLeg m pid ts)).legs.length =
        (currentSetOf m).legs.length := by
  have hcs : currentSetOf (sealCurrentLeg m pid ts) =
      { currentSetOf m with
          legs := (currentSetOf m).legs.set m.currentLegIndex
            ({ currentLegOf m with
                winnerId := some pid, finishedAt := some ts }) } := by
    unfold sealCurrentLeg currentSetOf
    exact nth_set_self _ _ _ _ h1
  refine ⟨rfl, rfl, by simp [sealCurrentLeg], hcs, ?_,
    by rw [hcs], by rw [hcs], by rw [hcs]; simp⟩
  unfold currentLegOf
  rw [show (sealCurrentLeg m pid ts).currentLegIndex =
    m.currentLegIndex from rfl, hcs]
  exact nth_set_self _ _ _ _ h2

/-- Index bookkeeping and current-set / current-leg shape of
`sealCurrentSet`. -/
theorem sealCurrentSet_spec (m : MatchScore) (pid : String) (ts : Int)
    (h1 : m.currentSetIndex < m.sets.length) :
    (sealCurrentSet m pid ts).currentSetIndex = m.currentSetIndex
    ∧ (sealCurrentSet m pid ts).currentLegIndex = m.currentLegIndex
    ∧ (sealCurrentSet m pid ts).sets.length = m.sets.length
    ∧ currentSetOf (sealCurrentSet m pid ts) =
        { currentSetOf m with
            winnerId := some pid, finishedAt := some ts }
    ∧ currentLegOf (sealCurrentSet m pid ts) = currentLegOf m
    ∧ (currentSetOf (sealCurrentSet m pid ts)).winnerId = some pid
    ∧ (currentSetOf (sealCurrentSet m pid ts)).finishedAt = some ts
    ∧ (currentSetOf (sealCurrentSet m pid ts)).legs =
        (currentSetOf m).legs := by
  have hcs : currentSetOf (sealCurrentSet m pid ts) =
      { currentSetOf m with
          winnerId := some pid, finishedAt := some ts } := by
    unfold sealCurrentSet currentSetOf
    exact nth_set_self _ _ _ _ h1
  refine ⟨rfl, rfl, by simp [sealCurrentSet], hcs, ?_,
    by rw [hcs], by rw [hcs], by rw [hcs]⟩
  unfold currentLegOf
  rw [show (sealCurrentSet m pid ts).currentLegIndex =
    m.currentLegIndex from rfl, hcs]

/-- The defensive current-remaining read stays within `P` whenever all
tracked values, the zero default and the starting score do. -/
theorem curRemainingOf_P (P : Int → Prop) (hPs : P start)
    (st1 : ReplayState) (pid : String) (idx : Nat)
    (hV : ValsP P st1) :
    P (curRemainingOf st1 pid idx start) := by
  unfold curRemainingOf
  by_cases hc0 : lookupScore (currentLegOf st1.ms).scoresByPlayer pid = 0
  · rw [if_pos hc0]
    by_cases hr : nth st1.remaining idx 0 = 0
    · rw [if_pos hr]
      exact hPs
    · rw [if_neg hr]
      rcases nth_mem st1.remaining idx 0 with h | h
      · exact absurd h hr
      · exact hV.1 _ h
  · rw [if_neg hc0]
    rcases lookupScore_cases (currentLegOf st1.ms).scoresByPlayer pid
      with h | ⟨q, hq, hqe⟩
    · exact absurd h hc0
    · exact hqe ▸ hV.2 q hq

/-- A replay step is the identity once a match winner is recorded. -/
theorem stepThrow_of_winner (cfg : GameConfig) (players : List GamePlayer)
    (start : Int) (st : ReplayState) (t : Throw)
    (h : st.matchWinnerId.isSome) :
    stepThrow cfg players start st t = st := by
  unfold stepThrow
  rw [if_pos h]

/-- Folding further throws over a state with a match winner changes
nothing. -/
theorem foldl_stepThrow_of_winner (cfg : GameConfig)
    (players : List GamePlayer) (start : Int) (suf : List Throw) :
    ∀ st : ReplayState, st.matchWinnerId.isSome →
      suf.foldl (stepThrow cfg players start) st = st := by
  induction suf with
  | nil =>
    intro st _
    rfl
  | cons t ts ih =>
    intro st h
    rw [List.foldl_cons, stepThrow_of_winner _ _ _ _ _ h]
    exact ih st h

/-- The scoring core preserves index validity and any per-value predicate
closed under the starting score, the zero default, and accepted
candidates. -/
theorem stepThrowCore_preserves (cfg : GameConfig)
    (players : List GamePlayer) (start : Int) (P : Int → Prop)
    (hPs : P start) (t : Throw) (idx : Nat)
    (hp : players ≠ [])
    (hsub : ∀ cur : Int, P cur →
      ¬(cur - t.visitScore < 0 ∨ (cfg.doubleOut ∧ cur - t.visitScore = 1)) →
      P (cur - t.visitScore))
    (st1 : ReplayState) (hI : IdxValid st1) (hV : ValsP P st1) :
    IdxValid (stepThrowCore cfg players start st1 t idx) ∧
      ValsP P (stepThrowCore cfg players start st1 t idx) := by
  obtain ⟨hI1, hI2⟩ := hI
  simp only [stepThrowCore]
  set cand := curRemainingOf st1 t.playerId idx start - t.visitScore
    with hcanddef
  by_cases hbust : cand < 0 ∨ (cfg.doubleOut ∧ cand = 1)
  · rw [if_pos hbust]
    exact ⟨⟨hI1, hI2⟩, hV⟩
  · rw [if_neg hbust]
    have hcand : P cand :=
      hsub _ (curRemainingOf_P P hPs st1 t.playerId idx hV) hbust
    set ms1 := setCurrentLegScore st1.ms t.playerId cand with hms1def
    set rem1 := st1.remaining.set idx cand with hrem1def
    set sc1 := updatePlayerScoreAt st1.scores idx t.visitScore cand
      with hsc1def
    obtain ⟨hs1, hs2, hs3, hs4, hs5, hs6, hs7, hs8⟩ :=
      setCurrentLegScore_spec st1.ms t.playerId cand hI1 hI2
    have hIms1 : ms1.currentSetIndex < ms1.sets.length := by
      rw [hms1def, hs1, hs3]
      exact hI1
    have hIms1b : ms1.currentLegIndex < (currentSetOf ms1).legs.length := by
      rw [hms1def, hs2, hs4]
      simpa using hI2
    have hrem1P : ∀ v ∈ rem1, P v := by
      intro v hv
      rw [hrem1def] at hv
      rcases List.mem_or_eq_of_mem_set hv with h | h
      · exact hV.1 v h
      · exact h ▸ hcand
    have hmap1 : ∀ q ∈ (currentLegOf ms1).scoresByPlayer, P q.2 := by
      rw [hms1def, hs5]
      intro q hq
      rcases mem_insertScore _ _ _ _ hq with h | h
      · exact h ▸ hcand
      · exact hV.2 q h
    by_cases hc0 : cand = 0
    · rw [if_pos hc0]
      set ms2 := sealCurrentLeg ms1 t.playerId t.createdAt with hms2def
      obtain ⟨hl1, hl2, hl3, hl4, hl5, hl6, hl7, hl8⟩ :=
        sealCurrentLeg_spec ms1 t.playerId t.createdAt hIms1 hIms1b
      have hIms2 : ms2.currentSetIndex < ms2.sets.length := by
        rw [hms2def, hl1, hl3]
        exact hIms1
      have hIms2b : ms2.currentLegIndex <
          (currentSetOf ms2).legs.length := by
        rw [hms2def, hl2, hl4]
        simpa using hIms1b
      have hmap2 : ∀ q ∈ (currentLegOf ms2).scoresByPlayer, P q.2 := by
        rw [hms2def, hl5]
        exact hmap1
      split
      · set ms3 := sealCurrentSet ms2 t.playerId t.createdAt with hms3def
        obtain ⟨hx1, hx2, hx3, hx4, hx5, hx6, hx7, hx8⟩ :=
          sealCurrentSet_spec ms2 t.playerId t.createdAt hIms2
        have hIms3 : ms3.currentSetIndex < ms3.sets.length := by
          rw [hms3def, hx1, hx3]
          exact hIms2
        have hIms3b : ms3.currentLegIndex <
            (currentSetOf ms3).legs.length := by
          rw [hms3def, hx2, hx4]
          exact hIms2b
        have hmap3 : ∀ q ∈ (currentLegOf ms3).scoresByPlayer, P q.2 := by
          rw [hms3def, hx5]
          exact hmap2
        split
        · exact ⟨⟨hIms3, hIms3b⟩, hrem1P, hmap3⟩
        · obtain ⟨hn1, hn2, hn3, hn4⟩ :=
            startNext_fresh ms3 start players hp hIms3
          refine ⟨⟨hn1, hn2⟩, ?_, ?_⟩
          · intro v hv
            rw [List.mem_map] at hv
            obtain ⟨a, _, ha⟩ := hv
            exact ha ▸ hPs
          · show ∀ q ∈ (currentLegOf (startNextLegOrSet ms3 start
              players)).scoresByPlayer, P q.2
            rw [hn3]
            intro q hq
            exact mem_initScoresMap players start q hq ▸ hPs
      · obtain ⟨hn1, hn2, hn3, hn4⟩ :=
          startNext_fresh ms2 start players hp hIms2
        refine ⟨⟨hn1, hn2⟩, ?_, ?_⟩
        · intro v hv
          rw [List.mem_map] at hv
          obtain ⟨a, _, ha⟩ := hv
          exact ha ▸ hPs
        · show ∀ q ∈ (currentLegOf (startNextLegOrSet ms2 start
            players)).scoresByPlayer, P q.2
          rw [hn3]
          intro q hq
          exact mem_initScoresMap players start q hq ▸ hPs
    · rw [if_neg hc0]
      exact ⟨⟨hIms1, hIms1b⟩, hrem1P, hmap1⟩

/-- One replay step preserves index validity and any per-value predicate
closed under the starting score, the zero default, and accepted
candidates. -/
theorem stepThrow_preserves (cfg : GameConfig) (players : List GamePlayer)
    (start : Int) (P : Int → Prop) (hPs : P start) (t : Throw)
    (hsub : ∀ cur : Int, P cur →
      ¬(cur - t.visitScore < 0 ∨ (cfg.doubleOut ∧ cur - t.visitScore = 1)) →
      P (cur - t.visitScore))
    (st : ReplayState) (hI : IdxValid st) (hV : ValsP P st) :
    IdxValid (stepThrow cfg players start st t) ∧
      ValsP P (stepThrow cfg players start st t) := by
  by_cases hw : st.matchWinnerId.isSome
  · rw [stepThrow_of_winner _ _ _ _ _ hw]
    exact ⟨hI, hV⟩
  · cases hidx : playerIndexOf players t.playerId with
    | none =>
      have hst : stepThrow cfg players start st t = st := by
        unfold stepThrow
        rw [if_neg hw, hidx]
      rw [hst]
      exact ⟨hI, hV⟩
    | some idx =>
      have hp : players ≠ [] := by
        intro hnil
        subst hnil
        simp [playerIndexOf] at hidx
      have hst : stepThrow cfg players start st t =
          stepThrowCore cfg players start
            (if (currentLegOf st.ms).winnerId.isSome then
              advanceSealedLeg players start st
            else st) t idx := by
        unfold stepThrow
        rw [if_neg hw, hidx]
      rw [hst]
      by_cases hopen : (currentLegOf st.ms).winnerId.isSome
      · rw [if_pos hopen]
        obtain ⟨hn1, hn2, hn3, hn4⟩ :=
          startNext_fresh st.ms start players hp hI.1
        refine stepThrowCore_preserves cfg players start P hPs t idx
          hp hsub _ ⟨hn1, hn2⟩ ⟨?_, ?_⟩
        · intro v hv
          rw [show (advanceSealedLeg players start st).remaining =
            st.remaining.map (fun _ => start) from rfl] at hv
          rw [List.mem_map] at hv
          obtain ⟨a, _, ha⟩ := hv
          exact ha ▸ hPs
        · show ∀ q ∈ (currentLegOf (startNextLegOrSet st.ms start
            players)).scoresByPlayer, P q.2
          rw [hn3]
          intro q hq
          exact mem_initScoresMap players start q hq ▸ hPs
      · rw [if_neg hopen]
        exact stepThrowCore_preserves cfg players start P hPs t idx
          hp hsub st hI hV

/-- The initial replay state satisfies both invariants. -/
theorem initReplayState_inv (players : List GamePlayer)
    (start lw sw : Int) (P : Int → Prop) (hPs : P start) :
    IdxValid (initReplayState players start lw sw) ∧
      ValsP P (initReplayState players start lw sw) := by
  refine ⟨⟨by simp [initReplayState, initMatchScore], ?_⟩, ?_, ?_⟩
  · show (0 : Nat) < (currentSetOf (initMatchScore players start lw
      sw)).legs.length
    rw [show currentSetOf (initMatchScore players start lw sw) =
      { setNumber := 1, legsToWin := lw
        legs := [freshLeg 1 start players]
        winnerId := none, finishedAt := none } from rfl]
    simp
  · intro v hv
    rw [show (initReplayState players start lw sw).remaining =
      players.map (fun _ => start) from rfl] at hv
    rw [List.mem_map] at hv
    obtain ⟨a, _, ha⟩ := hv
    exact ha ▸ hPs
  · intro q hq
    rw [show currentLegOf (initReplayState players start lw sw).ms =
      freshLeg 1 start players from rfl] at hq
    exact mem_initScoresMap players start q hq ▸ hPs

/-- Replaying a full history preserves index validity and any per-value
predicate closed under the starting score, zero, and accepted candidate
results. -/
theorem replay_preserves (cfg : GameConfig) (players : List GamePlayer)
    (start lw sw : Int) (P : Int → Prop) (hPs : P start)
    (history : List Throw)
    (hsub : ∀ t ∈ history, ∀ cur : Int, P cur →
      ¬(cur - t.visitScore < 0 ∨ (cfg.doubleOut ∧ cur - t.visitScore = 1)) →
      P (cur - t.visitScore)) :
    IdxValid (replayHistory cfg players start lw sw history) ∧
      ValsP P (replayHistory cfg players start lw sw history) := by
  have hrec : ∀ (l : List Throw), (∀ t ∈ l, ∀ cur : Int, P cur →
      ¬(cur - t.visitScore < 0 ∨ (cfg.doubleOut ∧ cur - t.visitScore = 1)) →
      P (cur - t.visitScore)) →
      ∀ st : ReplayState, IdxValid st → ValsP P st →
      IdxValid (l.foldl (stepThrow cfg players start) st) ∧
        ValsP P (l.foldl (stepThrow cfg players start) st) := by
    intro l
    induction l with
    | nil =>
      intro _ st h1 h2
      exact ⟨h1, h2⟩
    | cons t ts ih =>
      intro hl st h1 h2
      rw [List.foldl_cons]
      have hstep := stepThrow_preserves cfg players start P hPs t
        (hl t (List.mem_cons_self _ _)) st h1 h2
      exact ih (fun x hx => hl x (List.mem_cons_of_mem _ hx)) _
        hstep.1 hstep.2
  have hinit := initReplayState_inv players start lw sw P hPs
  exact hrec history hsub _ hinit.1 hinit.2

/-- C2: with a non-negative starting score and non-negative visit scores,
after replaying any prefix of the log every tracked remaining value — each
entry of the remaining slice, each score of the currently open leg, and in
particular each player's remaining in that leg — lies in
[0, starting score]; busts that would go negative are simply not
applied. -/
theorem c2_remaining_in_range (cfg : GameConfig)
    (players : List GamePlayer) (lw sw : Int)
    (history pre suf : List Throw) (hsplit : history = pre ++ suf)
    (hstart : 0 ≤ effectiveStartingScore cfg)
    (hv : ∀ t ∈ history, 0 ≤ t.visitScore) :
    (∀ v ∈ (replayHistory cfg players (effectiveStartingScore cfg) lw sw
        pre).remaining, 0 ≤ v ∧ v ≤ effectiveStartingScore cfg)
    ∧ (∀ q ∈ (currentLegOf (replayHistory cfg players
        (effectiveStartingScore cfg) lw sw pre).ms).scoresByPlayer,
        0 ≤ q.2 ∧ q.2 ≤ effectiveStartingScore cfg)
    ∧ (∀ p ∈ players,
        0 ≤ lookupScore (currentLegOf (replayHistory cfg players
          (effectiveStartingScore cfg) lw sw pre).ms).scoresByPlayer p.id
        ∧ lookupScore (currentLegOf (replayHistory cfg players
          (effectiveStartingScore cfg) lw sw pre).ms).scoresByPlayer p.id
          ≤ effectiveStartingScore cfg) := by
  have h := replay_preserves cfg players (effectiveStartingScore cfg) lw sw
    (fun v => 0 ≤ v ∧ v ≤ effectiveStartingScore cfg)
    ⟨hstart, le_refl _⟩ pre ?_
  · refine ⟨h.2.1, h.2.2, ?_⟩
    intro p _
    rcases lookupScore_cases (currentLegOf (replayHistory cfg players
        (effectiveStartingScore cfg) lw sw pre).ms).scoresByPlayer p.id
      with hc | ⟨q, hq, hqe⟩
    · rw [hc]
      exact ⟨le_refl 0, hstart⟩
    · rw [← hqe]
      exact h.2.2 q hq
  · intro t ht cur hcur hnb
    have hvt : 0 ≤ t.visitScore := hv t (hsplit ▸ List.mem_append_left _ ht)
    push_neg at hnb
    constructor
    · exact hnb.1
    · omega

/-- Witness for C2 at a concrete input: after A scores 60 from 501, the
value 441 tracked for A is within [0, 501]. -/
theorem c2_remaining_in_range_witness :
    (0 : Int) ≤ 441 ∧ (441 : Int) ≤ effectiveStartingScore exCfg501 :=
  (c2_remaining_in_range exCfg501 [exA, exB] 1 1
    [exThrow "t1" 1 "A" 60] [exThrow "t1" 1 "A" 60] [] rfl
    (by decide) (by decide)).1 441 (by decide)

/-- C10: with double-out enabled and a starting score other than 1, no
tracked remaining value — remaining slice, current leg scores, any
player's remaining — ever equals exactly 1 after replaying any prefix:
transitions to 1 are busts, and fresh legs open at the starting score. -/
theorem c10_never_one (cfg : GameConfig) (players : List GamePlayer)
    (lw sw : Int) (history pre suf : List Throw)
    (hsplit : history = pre ++ suf) (hdo : cfg.doubleOut = true)
    (hstart : effectiveStartingScore cfg ≠ 1) :
    (∀ v ∈ (replayHistory cfg players (effectiveStartingScore cfg) lw sw
        pre).remaining, v ≠ 1)
    ∧ (∀ q ∈ (currentLegOf (replayHistory cfg players
        (effectiveStartingScore cfg) lw sw pre).ms).scoresByPlayer,
        q.2 ≠ 1)
    ∧ (∀ p ∈ players,
        lookupScore (currentLegOf (replayHistory cfg players
          (effectiveStartingScore cfg) lw sw pre).ms).scoresByPlayer p.id
          ≠ 1) := by
  have h := replay_preserves cfg players (effectiveStartingScore cfg) lw sw
    (fun v => v ≠ 1) hstart pre ?_
  · refine ⟨h.2.1, h.2.2, ?_⟩
    intro p _
    rcases lookupScore_cases (currentLegOf (replayHistory cfg players
        (effectiveStartingScore cfg) lw sw pre).ms).scoresByPlayer p.id
      with hc | ⟨q, hq, hqe⟩
    · rw [hc]
      decide
    · rw [← hqe]
      exact h.2.2 q hq
  · intro t _ cur _ hnb
    push_neg at hnb
    exact hnb.2 hdo

/-- Witness for C10 at a concrete input: after A scores 60 from 501 under
double-out, A's tracked 441 is not 1 (and by the theorem no value is). -/
theorem c10_never_one_witness : (441 : Int) ≠ 1 :=
  (c10_never_one exCfg501 [exA, exB] 1 1 [exThrow "t1" 1 "A" 60]
    [exThrow "t1" 1 "A" 60] [] rfl rfl (by decide)).1 441 (by decide)

/-- C3: a visit whose candidate remaining is negative, or exactly 1 under
double-out, is a bust: replaying the log extended by it yields the very
same replay state — the thrower's remaining in the open leg is unchanged
and no last visit is recorded — while the current player still advances to
the seat after the thrower. -/
theorem c3_bust_consumes_turn (cfg : GameConfig) (p0 : GamePlayer)
    (rest : List GamePlayer) (lw sw : Int) (history : List Throw)
    (t : Throw) (idx : Nat)
    (hidx : playerIndexOf (p0 :: rest) t.playerId = some idx)
    (hw : (replayHistory cfg (p0 :: rest) (effectiveStartingScore cfg)
      lw sw history).matchWinnerId = none)
    (hopen : (currentLegOf (replayHistory cfg (p0 :: rest)
      (effectiveStartingScore cfg) lw sw history).ms).winnerId = none)
    (hbust : curRemainingOf (replayHistory cfg (p0 :: rest)
        (effectiveStartingScore cfg) lw sw history) t.playerId idx
        (effectiveStartingScore cfg) - t.visitScore < 0
      ∨ (cfg.doubleOut ∧
        curRemainingOf (replayHistory cfg (p0 :: rest)
          (effectiveStartingScore cfg) lw sw history) t.playerId idx
          (effectiveStartingScore cfg) - t.visitScore = 1)) :
    replayHistory cfg (p0 :: rest) (effectiveStartingScore cfg) lw sw
        (history ++ [t]) =
      replayHistory cfg (p0 :: rest) (effectiveStartingScore cfg) lw sw
        history
    ∧ currentPlayerOf (p0 :: rest) (history ++ [t]) =
        playerIdAt (p0 :: rest) ((idx + 1) % (p0 :: rest).length) := by
  constructor
  · have happ : replayHistory cfg (p0 :: rest)
        (effectiveStartingScore cfg) lw sw (history ++ [t]) =
        stepThrow cfg (p0 :: rest) (effectiveStartingScore cfg)
          (replayHistory cfg (p0 :: rest) (effectiveStartingScore cfg)
            lw sw history) t := by
      unfold replayHistory
      rw [List.foldl_append]
      rfl
    rw [happ]
    unfold stepThrow
    rw [hw]
    simp only [Option.isSome_none, Bool.false_eq_true, if_false]
    rw [hidx, hopen]
    simp only [Option.isSome_none, Bool.false_eq_true, if_false]
    unfold stepThrowCore
    rw [if_pos hbust]
  · simp only [currentPlayerOf, List.getLast?_concat, hidx]

/-- Witness for C3 at a concrete input: A at remaining 41 busts with a
visit of 42; the state after the extended log equals the state before, and
B is the current player. -/
theorem c3_bust_consumes_turn_witness :
    replayHistory exCfg501 [exA, exB] (effectiveStartingScore exCfg501)
        1 1 ([exThrow "t1" 1 "A" 460, exThrow "t2" 2 "B" 180] ++
          [exThrow "t3" 3 "A" 42]) =
      replayHistory exCfg501 [exA, exB] (effectiveStartingScore exCfg501)
        1 1 [exThrow "t1" 1 "A" 460, exThrow "t2" 2 "B" 180]
    ∧ currentPlayerOf [exA, exB]
        ([exThrow "t1" 1 "A" 460, exThrow "t2" 2 "B" 180] ++
          [exThrow "t3" 3 "A" 42]) =
        playerIdAt [exA, exB]
          ((0 + 1) % ([exA, exB] : List GamePlayer).length) :=
  c3_bust_consumes_turn exCfg501 exA [exB] 1 1
    [exThrow "t1" 1 "A" 460, exThrow "t2" 2 "B" 180]
    (exThrow "t3" 3 "A" 42) 0 (by decide) (by decide) (by decide)
    (by decide)

/-- `computeScores` assigns the current player through the one shared turn
rule in both mode branches whenever the player list is non-empty. -/
theorem computeScores_currentPlayer (cfg : GameConfig)
    (players : List GamePlayer) (history : List Throw)
    (prev : Option String) (hp : players ≠ []) :
    (computeScores cfg players history prev).currentPlayerId =
      currentPlayerOf players history := by
  have he : players.isEmpty = false := by
    cases players with
    | nil => exact absurd rfl hp
    | cons a l => rfl
  by_cases hm : cfg.mode = "X01" <;> simp [computeScores, he, hm]

/-- C4: for a game with a non-empty player list, the current player is the
first seat when the log is empty, and otherwise the seat immediately after
the most recent thrower's seat, wrapping modulo the player count — for
every game mode and regardless of the content of the log. -/
theorem c4_current_player_rule (cfg : GameConfig) (p0 : GamePlayer)
    (rest : List GamePlayer) (history : List Throw) (prev : Option String) :
    (history = [] →
      (computeScores cfg (p0 :: rest) history prev).currentPlayerId = p0.id)
    ∧ (∀ (pre : List Throw) (t : Throw) (i : Nat),
        history = pre ++ [t] →
        playerIndexOf (p0 :: rest) t.playerId = some i →
        (computeScores cfg (p0 :: rest) history prev).currentPlayerId =
          playerIdAt (p0 :: rest) ((i + 1) % (p0 :: rest).length)) := by
  constructor
  · intro h
    subst h
    rw [computeScores_currentPlayer _ _ _ _ (by simp)]
    rfl
  · intro pre t i hh hi
    subst hh
    rw [computeScores_currentPlayer _ _ _ _ (by simp)]
    simp only [currentPlayerOf, List.getLast?_concat, hi]

/-- Witness for C4 at a concrete input: seats [A, B], A threw last, so B
(the seat after index 0) is the current player. -/
theorem c4_current_player_rule_witness :
    (computeScores exCfg501 [exA, exB] [exThrow "t1" 1 "A" 60]
        none).currentPlayerId =
      playerIdAt [exA, exB] ((0 + 1) % ([exA, exB] : List GamePlayer).length) :=
  (c4_current_player_rule exCfg501 exA [exB] [exThrow "t1" 1 "A" 60] none).2
    [] (exThrow "t1" 1 "A" 60) 0 rfl (by decide)

/-- C9: match creation fails when the trimmed mode is empty or legs or sets
are non-positive; a successful creation stores the configuration verbatim
(trimmed mode, no defaulting); the 501 default applies only to an absent
starting score, at scoring time. -/
theorem c9_create_validation (req : CreateGameRequest) :
    ((trimSpace req.config.mode = "" ∨ req.config.legs ≤ 0 ∨
        req.config.sets ≤ 0) →
      ∃ e, validateCreateGame req = Except.error e)
    ∧ (∀ g, validateCreateGame req = Except.ok g →
        g = { req.config with mode := trimSpace req.config.mode })
    ∧ (∀ cfg : GameConfig, cfg.startingScore = none →
        effectiveStartingScore cfg = 501)
    ∧ (∀ (cfg : GameConfig) (s : Int), cfg.startingScore = some s →
        effectiveStartingScore cfg = s) := by
  refine ⟨?_, ?_, ?_, ?_⟩
  · intro h
    unfold validateCreateGame
    by_cases hp : req.playerIds.isEmpty
    · exact ⟨"at least one player is required", by simp [hp]⟩
    · rcases h with h | h | h
      · exact ⟨"mode is required", by simp [hp, h]⟩
      · by_cases hm : trimSpace req.config.mode = ""
        · exact ⟨"mode is required", by simp [hp, hm]⟩
        · exact ⟨"legs must be > 0", by simp [hp, hm, h]⟩
      · by_cases hm : trimSpace req.config.mode = ""
        · exact ⟨"mode is required", by simp [hp, hm]⟩
        · by_cases hl : req.config.legs ≤ 0
          · exact ⟨"legs must be > 0", by simp [hp, hm, hl]⟩
          · exact ⟨"sets must be > 0", by simp [hp, hm, hl, h]⟩
  · intro g hg
    unfold validateCreateGame at hg
    by_cases hp : req.playerIds.isEmpty <;> simp [hp] at hg
    by_cases hm : trimSpace req.config.mode = "" <;> simp [hm] at hg
    by_cases hl : req.config.legs ≤ 0 <;> simp [hl] at hg
    by_cases hs : req.config.sets ≤ 0 <;> simp [hs] at hg
    exact hg.symm
  · intro cfg h
    simp [effectiveStartingScore, h]
  · intro cfg s h
    simp [effectiveStartingScore, h]

/-- Witness for C9 at concrete inputs: a request with blank mode fails, and
a 501 default is applied to a configuration without a starting score. -/
theorem c9_create_validation_witness :
    (∃ e, validateCreateGame
        { config := { mode := "  ", startingScore := none, legs := 1
                      sets := 1, doubleOut := true }
          playerIds := ["A"] } = Except.error e)
    ∧ effectiveStartingScore
        { mode := "X01", startingScore := none, legs := 1, sets := 1
          doubleOut := true } = 501 :=
  ⟨(c9_create_validation
      { config := { mode := "  ", startingScore := none, legs := 1
                    sets := 1, doubleOut := true }
        playerIds := ["A"] }).1 (Or.inl (by decide)),
   (c9_create_validation
      { config := { mode := "X01", startingScore := none, legs := 1
                    sets := 1, doubleOut := true }
        playerIds := ["A"] }).2.2.1 _ rfl⟩

/-- C6: `AddThrow` rejects exactly when the persisted status is
"finished", the acting (trimmed) player id is not seated, a current player
is defined and is not the actor, darts-thrown is outside 1..3, or
visit-score is outside 0..180; otherwise — bust or not — the throw is
appended.  (The hypothesis rules out the empty id as a seated id, matching
the UUID ids of the store.) -/
theorem c6_addThrow_validation (status : String) (cfg : GameConfig)
    (players : List GamePlayer) (history : List Throw)
    (req : CreateThrowRequest) (newId gameId : String) (now : Int)
    (hids : ∀ p ∈ players, p.id ≠ "") :
    ((∃ e, addThrow status cfg players history req newId gameId now =
        Except.error e) ↔
      (status = "finished" ∨
       (∀ p ∈ players, p.id ≠ trimSpace req.playerId) ∨
       ((computeScores cfg players history none).currentPlayerId ≠ "" ∧
        (computeScores cfg players history none).currentPlayerId ≠
          trimSpace req.playerId) ∨
       req.dartsThrown < 1 ∨ req.dartsThrown > 3 ∨
       req.visitScore < 0 ∨ req.visitScore > 180))
    ∧ (addThrow status cfg players history req newId gameId now =
        Except.ok (history ++
          [{ id := newId, gameId := gameId
             playerId := trimSpace req.playerId
             visitScore := req.visitScore
             dartsThrown := req.dartsThrown
             createdAt := now }]) ↔
      ¬ (status = "finished" ∨
         (∀ p ∈ players, p.id ≠ trimSpace req.playerId) ∨
         ((computeScores cfg players history none).currentPlayerId ≠ "" ∧
          (computeScores cfg players history none).currentPlayerId ≠
            trimSpace req.playerId) ∨
         req.dartsThrown < 1 ∨ req.dartsThrown > 3 ∨
         req.visitScore < 0 ∨ req.visitScore > 180)) := by
  by_cases h1 : trimSpace req.playerId = ""
  · have hns : ∀ p ∈ players, p.id ≠ trimSpace req.playerId := by
      intro p hp
      rw [h1]
      exact hids p hp
    constructor
    · constructor
      · intro _
        exact Or.inr (Or.inl hns)
      · intro _
        exact ⟨"playerId is required", by simp [addThrow, h1]⟩
    · constructor
      · intro hok
        simp [addThrow, h1] at hok
      · intro hC
        exact absurd (Or.inr (Or.inl hns)) hC
  · by_cases h2 : req.dartsThrown < 1 ∨ req.dartsThrown > 3
    · constructor
      · constructor
        · intro _
          rcases h2 with h2 | h2
          · exact Or.inr (Or.inr (Or.inr (Or.inl h2)))
          · exact Or.inr (Or.inr (Or.inr (Or.inr (Or.inl h2))))
        · intro _
          exact ⟨"dartsThrown must be between 1 and 3",
            by simp [addThrow, h1, h2]⟩
      · constructor
        · intro hok
          simp [addThrow, h1, h2] at hok
        · intro hC
          rcases h2 with h2 | h2
          · exact absurd (Or.inr (Or.inr (Or.inr (Or.inl h2)))) hC
          · exact absurd (Or.inr (Or.inr (Or.inr (Or.inr (Or.inl h2))))) hC
    · by_cases h3 : req.visitScore < 0 ∨ req.visitScore > 180
      · constructor
        · constructor
          · intro _
            rcases h3 with h3 | h3
            · exact Or.inr (Or.inr (Or.inr (Or.inr (Or.inr (Or.inl h3)))))
            · exact Or.inr (Or.inr (Or.inr (Or.inr (Or.inr (Or.inr h3)))))
          · intro _
            exact ⟨"visitScore must be between 0 and 180",
              by simp [addThrow, h1, h2, h3]⟩
        · constructor
          · intro hok
            simp [addThrow, h1, h2, h3] at hok
          · intro hC
            rcases h3 with h3 | h3
            · exact absurd
                (Or.inr (Or.inr (Or.inr (Or.inr (Or.inr (Or.inl h3)))))) hC
            · exact absurd
                (Or.inr (Or.inr (Or.inr (Or.inr (Or.inr (Or.inr h3)))))) hC
      · by_cases h4 : status = "finished"
        · constructor
          · exact ⟨fun _ => Or.inl h4,
              fun _ => ⟨"game is already finished",
                by simp [addThrow, h1, h2, h3, h4]⟩⟩
          · constructor
            · intro hok
              simp [addThrow, h1, h2, h3, h4] at hok
            · intro hC
              exact absurd (Or.inl h4) hC
        · by_cases h5 : players.any (fun p => p.id = trimSpace req.playerId)
          · have hmem : ¬ ∀ p ∈ players, p.id ≠ trimSpace req.playerId := by
              rw [List.any_eq_true] at h5
              rcases h5 with ⟨p, hp, hpe⟩
              intro hall
              exact hall p hp (by simpa using hpe)
            by_cases h6 :
                (computeScores cfg players history none).currentPlayerId ≠ ""
                ∧ (computeScores cfg players history none).currentPlayerId ≠
                  trimSpace req.playerId
            · constructor
              · exact ⟨fun _ => Or.inr (Or.inr (Or.inl h6)),
                  fun _ => ⟨"not this player's turn",
                    by simp [addThrow, h1, h2, h3, h4, h5, h6]⟩⟩
              · constructor
                · intro hok
                  simp [addThrow, h1, h2, h3, h4, h5, h6] at hok
                · intro hC
                  exact absurd (Or.inr (Or.inr (Or.inl h6))) hC
            · have hnC : ¬ (status = "finished" ∨
                  (∀ p ∈ players, p.id ≠ trimSpace req.playerId) ∨
                  ((computeScores cfg players history none).currentPlayerId
                      ≠ "" ∧
                   (computeScores cfg players history none).currentPlayerId
                      ≠ trimSpace req.playerId) ∨
                  req.dartsThrown < 1 ∨ req.dartsThrown > 3 ∨
                  req.visitScore < 0 ∨ req.visitScore > 180) := by
                intro hC
                rcases hC with hC | hC | hC | hC | hC | hC | hC
                · exact absurd hC h4
                · exact absurd hC hmem
                · exact absurd hC h6
                · exact h2 (Or.inl hC)
                · exact h2 (Or.inr hC)
                · exact h3 (Or.inl hC)
                · exact h3 (Or.inr hC)
              constructor
              · constructor
                · intro ⟨e, he⟩
                  simp [addThrow, h1, h2, h3, h4, h5, h6] at he
                · intro hC
                  exact absurd hC hnC
              · constructor
                · intro _
                  exact hnC
                · intro _
                  simp [addThrow, h1, h2, h3, h4, h5, h6]
          · constructor
            · constructor
              · intro _
                refine Or.inr (Or.inl ?_)
                intro p hp hpe
                rw [List.any_eq_true] at h5
                exact h5 ⟨p, hp, by simpa using hpe⟩
              · intro _
                exact ⟨"player is not part of this game",
                  by simp [addThrow, h1, h2, h3, h4, h5]⟩
            · constructor
              · intro hok
                simp [addThrow, h1, h2, h3, h4, h5] at hok
              · intro hC
                refine absurd (Or.inr (Or.inl ?_)) hC
                intro p hp hpe
                rw [List.any_eq_true] at h5
                exact h5 ⟨p, hp, by simpa using hpe⟩

/-- Witness for C6 at a concrete input: a bust throw (B at 501 cannot take
502, but this is not even computed here) from the correct player is
appended, and a throw by the wrong player is rejected. -/
theorem c6_addThrow_validation_witness :
    (addThrow "in_progress" exCfg501 [exA, exB]
        [exThrow "t1" 1 "A" 60] { playerId := "B", visitScore := 180
                                  dartsThrown := 3 } "t2" "g1" 2 =
      Except.ok ([exThrow "t1" 1 "A" 60] ++
        [{ id := "t2", gameId := "g1", playerId := trimSpace "B"
           visitScore := 180, dartsThrown := 3, createdAt := 2 }])) := by
  have h := (c6_addThrow_validation "in_progress" exCfg501 [exA, exB]
    [exThrow "t1" 1 "A" 60] { playerId := "B", visitScore := 180
                              dartsThrown := 3 } "t2" "g1" 2
    (by decide)).2
  exact h.mpr (by decide)

/-- `laterThrow` picks the second throw when it is strictly newer. -/
theorem laterThrow_of_before {a b : Throw} (h : throwBefore a b) :
    laterThrow a b = b := by
  unfold laterThrow
  rw [if_pos h]

/-- `List.foldl laterThrow` returns either its seed or a list element. -/
theorem foldl_laterThrow_mem (l : List Throw) (a : Throw) :
    l.foldl laterThrow a = a ∨ l.foldl laterThrow a ∈ l := by
  induction l generalizing a with
  | nil => exact Or.inl rfl
  | cons b t ih =>
    have hab : laterThrow a b = a ∨ laterThrow a b = b := by
      unfold laterThrow
      split <;> simp
    rw [List.foldl_cons]
    rcases ih (laterThrow a b) with h | h
    · rcases hab with h2 | h2
      · exact Or.inl (by rw [h, h2])
      · exact Or.inr (by rw [h, h2]; exact List.mem_cons_self _ _)
    · exact Or.inr (List.mem_cons_of_mem _ h)

/-- A throw strictly later than the seed and every element is the fold's
result. -/
theorem foldl_laterThrow_top (t : Throw) (l : List Throw) (a : Throw)
    (ha : throwBefore a t) (hl : ∀ x ∈ l, throwBefore x t) :
    (l ++ [t]).foldl laterThrow a = t := by
  rw [List.foldl_append]
  have hm := foldl_laterThrow_mem l a
  have hbt : throwBefore (l.foldl laterThrow a) t := by
    rcases hm with h | h
    · rw [h]; exact ha
    · exact hl _ h
  show laterThrow (l.foldl laterThrow a) t = t
  exact laterThrow_of_before hbt

/-- C7: undo removes exactly the most recent throw under the (creation
time, identity) ascending order — for a log extended by a strictly newest
throw with a fresh id, undo returns the original log — fails on an empty
log, and therefore undo-then-replay inverts append-then-replay. -/
theorem c7_undo_inverse (l : List Throw) (t : Throw)
    (hk : ∀ x ∈ l, throwBefore x t) (hid : ∀ x ∈ l, x.id ≠ t.id) :
    undoLastThrow (l ++ [t]) = Except.ok l
    ∧ undoLastThrow [] = Except.error "no throws to undo"
    ∧ ∀ (cfg : GameConfig) (players : List GamePlayer)
        (prev : Option String),
        (undoLastThrow (l ++ [t])).map
            (fun h => computeScores cfg players h prev) =
          Except.ok (computeScores cfg players l prev) := by
  have hlast : lastThrowOf (l ++ [t]) = some t := by
    cases l with
    | nil => rfl
    | cons a rest =>
      show some ((rest ++ [t]).foldl laterThrow a) = some t
      rw [foldl_laterThrow_top t rest a (hk a (List.mem_cons_self _ _))
        (fun x hx => hk x (List.mem_cons_of_mem _ hx))]
  have herase : (l ++ [t]).eraseP (fun x => x.id = t.id) = l := by
    rw [List.eraseP_append_right _ (by
      intro b hb
      simpa using hid b hb)]
    simp [List.eraseP_cons_of_pos]
  have h1 : undoLastThrow (l ++ [t]) = Except.ok l := by
    unfold undoLastThrow
    rw [hlast]
    show Except.ok ((l ++ [t]).eraseP (fun x => x.id = t.id)) = Except.ok l
    rw [herase]
  exact ⟨h1, rfl, fun cfg players prev => by rw [h1]; rfl⟩

/-- Witness for C7 at a concrete input: appending B's throw at time 2 to
A's throw at time 1 and undoing returns the one-throw log. -/
theorem c7_undo_inverse_witness :
    undoLastThrow ([exThrow "t1" 1 "A" 60] ++ [exThrow "t2" 2 "B" 45]) =
      Except.ok [exThrow "t1" 1 "A" 60] :=
  (c7_undo_inverse [exThrow "t1" 1 "A" 60] (exThrow "t2" 2 "B" 45)
    (by decide) (by decide)).1

/-- `syncGameStatus` always ends up with the freshly derived
(lifecycle, winner) pair, whether or not it persists. -/
theorem syncGameStatus_fields (ss : String) (sw : Option String)
    (ms : Option MatchScore) (sc : List PlayerScore) (h : List Throw) :
    (syncGameStatus ss sw ms sc h).status =
        deriveLifecycle (deriveWinner ms sc) h
    ∧ (syncGameStatus ss sw ms sc h).winnerId = deriveWinner ms sc := by
  simp only [syncGameStatus]
  split
  · rename_i hcond
    exact ⟨hcond.1.symm, hcond.2⟩
  · exact ⟨rfl, rfl⟩

/-- With a match tree whose threshold is at least 1, the winner search
succeeds exactly when some player's set count reaches the threshold. -/
theorem deriveWinner_some_iff (m : MatchScore) (sc : List PlayerScore)
    (hm : 1 ≤ m.setsToWin) :
    (deriveWinner (some m) sc).isSome ↔
      ∃ pid, setsWonFor m pid ≥ m.setsToWin := by
  unfold deriveWinner
  rw [List.find?_isSome]
  constructor
  · intro ⟨pid, _, hp⟩
    exact ⟨pid, by simpa using hp⟩
  · intro ⟨pid, hp⟩
    refine ⟨pid, ?_, by simpa using hp⟩
    have h1 : 1 ≤ setsWonFor m pid := le_trans hm hp
    unfold setsWonFor at h1
    have hlen : 0 < (m.sets.filter
        (fun s => s.winnerId = some pid)).length := by
      by_contra hc
      push_neg at hc
      interval_cases h : (m.sets.filter
        (fun s => s.winnerId = some pid)).length
      · simp [h] at h1
    obtain ⟨s, hs⟩ := List.exists_mem_of_length_pos hlen
    rw [List.mem_filter] at hs
    rw [List.mem_filterMap]
    exact ⟨s, hs.1, by simpa using hs.2⟩

/-- C8: the synchronizer derives, in priority order, "finished" with a
winner exactly when a match winner exists (sets-won reaching the threshold
with a tree; a zero remaining without one), else "in_progress" on a
non-empty log, else "pending"; re-deriving from the same inputs persists
nothing and yields the same pair, and a run persists only when the derived
pair differs from the stored one. -/
theorem c8_status_lifecycle (ss : String) (sw : Option String)
    (ms : Option MatchScore) (sc : List PlayerScore) (h : List Throw)
    (hsw : ∀ m, ms = some m → 1 ≤ m.setsToWin) :
    ((syncGameStatus ss sw ms sc h).status = "finished" ↔
        (deriveWinner ms sc).isSome)
    ∧ (∀ m, ms = some m →
        ((syncGameStatus ss sw ms sc h).status = "finished" ↔
          ∃ pid, setsWonFor m pid ≥ m.setsToWin))
    ∧ (ms = none →
        ((syncGameStatus ss sw ms sc h).status = "finished" ↔
          ∃ s ∈ sc, s.remaining = some 0))
    ∧ ((syncGameStatus ss sw ms sc h).status = "in_progress" ↔
        deriveWinner ms sc = none ∧ h ≠ [])
    ∧ ((syncGameStatus ss sw ms sc h).status = "pending" ↔
        deriveWinner ms sc = none ∧ h = [])
    ∧ (syncGameStatus ss sw ms sc h).winnerId = deriveWinner ms sc
    ∧ syncGameStatus (syncGameStatus ss sw ms sc h).status
        (syncGameStatus ss sw ms sc h).winnerId ms sc h =
        { status := (syncGameStatus ss sw ms sc h).status
          winnerId := (syncGameStatus ss sw ms sc h).winnerId
          persisted := false }
    ∧ ((syncGameStatus ss sw ms sc h).persisted = false ↔
        (deriveLifecycle (deriveWinner ms sc) h = ss ∧
         sw = deriveWinner ms sc)) := by
  obtain ⟨hst, hwin⟩ := syncGameStatus_fields ss sw ms sc h
  have hfin : (syncGameStatus ss sw ms sc h).status = "finished" ↔
      (deriveWinner ms sc).isSome := by
    rw [hst]
    unfold deriveLifecycle
    by_cases hw : (deriveWinner ms sc).isSome
    · simp [hw]
    · rw [if_neg hw]
      simp only [hw, iff_false]
      split <;> decide
  refine ⟨hfin, ?_, ?_, ?_, ?_, hwin, ?_, ?_⟩
  · intro m hm
    subst hm
    rw [hfin]
    exact deriveWinner_some_iff m sc (hsw m rfl)
  · intro hm
    subst hm
    rw [hfin]
    have hd : deriveWinner none sc =
        (sc.find? (fun s => s.remaining = some 0)).map
          (fun s => s.playerId) := rfl
    rw [hd]
    constructor
    · intro hs
      cases hf : sc.find? (fun s => s.remaining = some 0) with
      | none =>
        rw [hf] at hs
        exact absurd hs (by decide)
      | some s =>
        exact ⟨s, List.mem_of_find?_eq_some hf,
          by simpa using List.find?_some hf⟩
    · intro ⟨s, hs, hp⟩
      have hsome : (sc.find? (fun s => s.remaining = some 0)).isSome :=
        List.find?_isSome.mpr ⟨s, hs, by simpa using hp⟩
      cases hf : sc.find? (fun s => s.remaining = some 0) with
      | none =>
        rw [hf] at hsome
        exact absurd hsome (by decide)
      | some s2 => rfl
  · rw [hst]
    unfold deriveLifecycle
    by_cases hw : (deriveWinner ms sc).isSome
    · rw [if_pos hw]
      constructor
      · intro hc
        exact absurd hc (by decide)
      · intro ⟨hn, _⟩
        rw [hn] at hw
        exact absurd hw (by decide)
    · rw [if_neg hw]
      have hwn : deriveWinner ms sc = none := by
        cases hde : deriveWinner ms sc with
        | none => rfl
        | some x => rw [hde] at hw; exact absurd rfl hw
      by_cases hh : h.length > 0
      · rw [if_pos hh]
        simp only [hwn, true_and, true_iff]
        rw [← List.length_pos]
        exact hh
      · rw [if_neg hh]
        constructor
        · intro hc
          exact absurd hc (by decide)
        · intro ⟨_, hne⟩
          rw [← List.length_pos] at hne
          exact absurd hne hh
  · rw [hst]
    unfold deriveLifecycle
    by_cases hw : (deriveWinner ms sc).isSome
    · rw [if_pos hw]
      constructor
      · intro hc
        exact absurd hc (by decide)
      · intro ⟨hn, _⟩
        rw [hn] at hw
        exact absurd hw (by decide)
    · rw [if_neg hw]
      have hwn : deriveWinner ms sc = none := by
        cases hde : deriveWinner ms sc with
        | none => rfl
        | some x => rw [hde] at hw; exact absurd rfl hw
      by_cases hh : h.length > 0
      · rw [if_pos hh]
        constructor
        · intro hc
          exact absurd hc (by decide)
        · intro ⟨_, hne⟩
          subst hne
          exact absurd hh (by decide)
      · rw [if_neg hh]
        simp only [hwn, true_and, true_iff]
        cases h with
        | nil => rfl
        | cons a l => exact absurd (by simp) hh
  · show (if deriveLifecycle (deriveWinner ms sc) h =
        (syncGameStatus ss sw ms sc h).status ∧
        (syncGameStatus ss sw ms sc h).winnerId = deriveWinner ms sc then
        ({ status := (syncGameStatus ss sw ms sc h).status
           winnerId := (syncGameStatus ss sw ms sc h).winnerId
           persisted := false } : SyncResult)
      else
        { status := deriveLifecycle (deriveWinner ms sc) h
          winnerId := deriveWinner ms sc, persisted := true }) =
      { status := (syncGameStatus ss sw ms sc h).status
        winnerId := (syncGameStatus ss sw ms sc h).winnerId
        persisted := false }
    rw [if_pos ⟨hst.symm, hwin⟩]
  · show (if deriveLifecycle (deriveWinner ms sc) h = ss ∧
        sw = deriveWinner ms sc then
        ({ status := ss, winnerId := sw, persisted := false } : SyncResult)
      else
        { status := deriveLifecycle (deriveWinner ms sc) h
          winnerId := deriveWinner ms sc
          persisted := true }).persisted = false ↔
      (deriveLifecycle (deriveWinner ms sc) h = ss ∧
       sw = deriveWinner ms sc)
    split
    · rename_i hcond
      exact ⟨fun _ => hcond, fun _ => rfl⟩
    · rename_i hcond
      constructor
      · intro hfalse
        simp at hfalse
      · exact fun hc => absurd hc hcond

/-- Witness for C8 at a concrete input: a one-set tree sealed by A with
threshold 1 derives "finished". -/
theorem c8_status_lifecycle_witness :
    (syncGameStatus "in_progress" none
        (some { setsToWin := 1, currentSetIndex := 0, currentLegIndex := 0
                sets := [{ setNumber := 1, legsToWin := 1, legs := []
                           winnerId := some "A"
                           finishedAt := some 1 }] })
        [] [exThrow "t1" 1 "A" 40]).status = "finished" := by
  have h := (c8_status_lifecycle "in_progress" none
    (some { setsToWin := 1, currentSetIndex := 0, currentLegIndex := 0
            sets := [{ setNumber := 1, legsToWin := 1, legs := []
                       winnerId := some "A"
                       finishedAt := some 1 }] })
    [] [exThrow "t1" 1 "A" 40]
    (by intro m hm; injection hm with h2; subst h2; decide)).2.1
  exact (h _ rfl).mpr ⟨"A", by decide⟩

/-- Counterexample to C5 as stated: on a log whose reconstruction already
has a match winner (A checked out 40, legs 1, sets 1) but with the
persisted status still "in_progress", `AddThrow` accepts the next throw by
the current player — so the gate is NOT independent of the persisted
status field. -/
theorem c5_counterexample :
    (computeScores exCfg40 [exA, exB] [exThrow "t1" 1 "A" 40] none).winnerId
        = some "A"
    ∧ addThrow "in_progress" exCfg40 [exA, exB] [exThrow "t1" 1 "A" 40]
        { playerId := "B", visitScore := 20, dartsThrown := 3 } "t2" "g1" 2
      = Except.ok ([exThrow "t1" 1 "A" 40] ++
          [{ id := "t2", gameId := "g1", playerId := "B", visitScore := 20
             dartsThrown := 3, createdAt := 2 }]) :=
  ⟨by decide, by rfl⟩

/-- C5 (amended): `AddThrow` rejects a well-formed throw exactly through
the persisted "finished" status, which the synchronizer derives whenever
the reconstruction has a winner; and the Reconstructor stops replay at the
sealing throw, so later log entries never affect the replayed state. -/
theorem c5_finished_gate (status : String) (cfg : GameConfig)
    (players : List GamePlayer) (history : List Throw)
    (req : CreateThrowRequest) (newId gameId : String) (now : Int)
    (hpid : trimSpace req.playerId ≠ "")
    (hd1 : 1 ≤ req.dartsThrown) (hd2 : req.dartsThrown ≤ 3)
    (hv1 : 0 ≤ req.visitScore) (hv2 : req.visitScore ≤ 180)
    (hfin : status = "finished") :
    addThrow status cfg players history req newId gameId now =
      Except.error "game is already finished"
    ∧ (∀ (ss : String) (sw : Option String) (msc : Option MatchScore)
        (sc : List PlayerScore) (hlog : List Throw),
        (deriveWinner msc sc).isSome →
        (syncGameStatus ss sw msc sc hlog).status = "finished")
    ∧ (∀ (start lw sw2 : Int) (pre suf : List Throw),
        (replayHistory cfg players start lw sw2 pre).matchWinnerId.isSome →
        replayHistory cfg players start lw sw2 (pre ++ suf) =
          replayHistory cfg players start lw sw2 pre) := by
  refine ⟨?_, ?_, ?_⟩
  · have hd : ¬ (req.dartsThrown < 1 ∨ req.dartsThrown > 3) := by omega
    have hv : ¬ (req.visitScore < 0 ∨ req.visitScore > 180) := by omega
    simp only [addThrow]
    rw [if_neg hpid, if_neg hd, if_neg hv, if_pos hfin]
  · intro ss sw msc sc hlog hw
    rw [(syncGameStatus_fields ss sw msc sc hlog).1]
    unfold deriveLifecycle
    rw [if_pos hw]
  · intro start lw sw2 pre suf hw
    unfold replayHistory
    rw [List.foldl_append]
    exact foldl_stepThrow_of_winner cfg players start suf _ hw

/-- Witness for the amended C5 at a concrete input. -/
theorem c5_finished_gate_witness :
    addThrow "finished" exCfg40 [exA, exB] []
        { playerId := "B", visitScore := 20, dartsThrown := 3 } "t9" "g1" 9
      = Except.error "game is already finished" :=
  (c5_finished_gate "finished" exCfg40 [exA, exB] []
    { playerId := "B", visitScore := 20, dartsThrown := 3 } "t9" "g1" 9
    (by decide) (by decide) (by decide) (by decide) (by decide) rfl).1


/-- The shape of a replay step on an exact checkout: seal the leg, then
depending on the recomputed counts seal the set and match or eagerly
advance. -/
theorem stepThrow_checkout_shape (cfg : GameConfig) (p0 : GamePlayer)
    (rest : List GamePlayer) (start : Int) (st : ReplayState) (t : Throw)
    (idx : Nat) (ms2 ms3 : MatchScore)
    (hw : st.matchWinnerId = none)
    (hidx : playerIndexOf (p0 :: rest) t.playerId = some idx)
    (hopen : (currentLegOf st.ms).winnerId = none)
    (hcand : curRemainingOf st t.playerId idx start - t.visitScore = 0)
    (hms2 : ms2 = sealCurrentLeg (setCurrentLegScore st.ms t.playerId 0)
      t.playerId t.createdAt)
    (hms3 : ms3 = sealCurrentSet ms2 t.playerId t.createdAt) :
    stepThrow cfg (p0 :: rest) start st t =
      (if legsWonFor (currentSetOf ms2) t.playerId ≥
          (currentSetOf ms2).legsToWin then
        (if setsWonFor ms3 t.playerId ≥ ms3.setsToWin then
          { ms := ms3, remaining := st.remaining.set idx 0
            scores := updatePlayerScoreAt st.scores idx t.visitScore 0
            matchWinnerId := some t.playerId }
        else
          { ms := startNextLegOrSet ms3 start (p0 :: rest)
            remaining := (st.remaining.set idx 0).map (fun _ => start)
            scores := resetScoresForNewLeg
              (updatePlayerScoreAt st.scores idx t.visitScore 0) start
            matchWinnerId := none })
      else
        { ms := startNextLegOrSet ms2 start (p0 :: rest)
          remaining := (st.remaining.set idx 0).map (fun _ => start)
          scores := resetScoresForNewLeg
            (updatePlayerScoreAt st.scores idx t.visitScore 0) start
          matchWinnerId := none }) := by
  subst hms3
  subst hms2
  unfold stepThrow
  rw [hw]
  simp only [Option.isSome_none, Bool.false_eq_true, if_false]
  rw [hidx, hopen]
  simp only [Option.isSome_none, Bool.false_eq_true, if_false]
  unfold stepThrowCore
  rw [hcand]
  rw [if_neg (by simp)]
  rw [if_pos rfl]

/-- C1: an exact checkout (candidate remaining 0, never a bust) seals the
current leg with the thrower as winner and the throw's timestamp; if the
thrower's leg count then reaches the set's threshold the set is sealed the
same way, and if their set count reaches the match threshold the match is
sealed with them as winner and nothing advances; otherwise a fresh leg
(same set) or a fresh set is opened immediately with every player's
remaining reset to the starting score. -/
theorem c1_checkout_cascade (cfg : GameConfig) (p0 : GamePlayer)
    (rest : List GamePlayer) (start : Int) (st : ReplayState) (t : Throw)
    (idx : Nat) (ms2 ms3 : MatchScore)
    (hI1 : st.ms.currentSetIndex < st.ms.sets.length)
    (hI2 : st.ms.currentLegIndex < (currentSetOf st.ms).legs.length)
    (hw : st.matchWinnerId = none)
    (hidx : playerIndexOf (p0 :: rest) t.playerId = some idx)
    (hopen : (currentLegOf st.ms).winnerId = none)
    (hsetopen : (currentSetOf st.ms).winnerId = none)
    (hcand : curRemainingOf st t.playerId idx start - t.visitScore = 0)
    (hms2 : ms2 = sealCurrentLeg (setCurrentLegScore st.ms t.playerId 0)
      t.playerId t.createdAt)
    (hms3 : ms3 = sealCurrentSet ms2 t.playerId t.createdAt) :
    ((nth (nth (stepThrow cfg (p0 :: rest) start st t).ms.sets
        st.ms.currentSetIndex defaultSet).legs st.ms.currentLegIndex
        defaultLeg).winnerId = some t.playerId
      ∧ (nth (nth (stepThrow cfg (p0 :: rest) start st t).ms.sets
          st.ms.currentSetIndex defaultSet).legs st.ms.currentLegIndex
          defaultLeg).finishedAt = some t.createdAt)
    ∧ (legsWonFor (currentSetOf ms2) t.playerId ≥
          (currentSetOf ms2).legsToWin →
        (nth (stepThrow cfg (p0 :: rest) start st t).ms.sets
            st.ms.currentSetIndex defaultSet).winnerId = some t.playerId
        ∧ (nth (stepThrow cfg (p0 :: rest) start st t).ms.sets
            st.ms.currentSetIndex defaultSet).finishedAt =
            some t.createdAt)
    ∧ (legsWonFor (currentSetOf ms2) t.playerId ≥
          (currentSetOf ms2).legsToWin →
        setsWonFor ms3 t.playerId ≥ ms3.setsToWin →
        stepThrow cfg (p0 :: rest) start st t =
          { ms := ms3, remaining := st.remaining.set idx 0
            scores := updatePlayerScoreAt st.scores idx t.visitScore 0
            matchWinnerId := some t.playerId })
    ∧ (legsWonFor (currentSetOf ms2) t.playerId ≥
          (currentSetOf ms2).legsToWin →
        ¬ (setsWonFor ms3 t.playerId ≥ ms3.setsToWin) →
        (stepThrow cfg (p0 :: rest) start st t).matchWinnerId = none
        ∧ (currentLegOf (stepThrow cfg (p0 :: rest) start
            st t).ms).winnerId = none
        ∧ (currentLegOf (stepThrow cfg (p0 :: rest) start
            st t).ms).scoresByPlayer = initScoresMap (p0 :: rest) start
        ∧ (∀ v ∈ (stepThrow cfg (p0 :: rest) start st t).remaining,
            v = start)
        ∧ (stepThrow cfg (p0 :: rest) start st t).ms.currentSetIndex =
            st.ms.sets.length
        ∧ (stepThrow cfg (p0 :: rest) start st t).ms.currentLegIndex = 0
        ∧ (stepThrow cfg (p0 :: rest) start st t).ms.sets.length =
            st.ms.sets.length + 1)
    ∧ (¬ (legsWonFor (currentSetOf ms2) t.playerId ≥
          (currentSetOf ms2).legsToWin) →
        (stepThrow cfg (p0 :: rest) start st t).matchWinnerId = none
        ∧ (currentLegOf (stepThrow cfg (p0 :: rest) start
            st t).ms).winnerId = none
        ∧ (currentLegOf (stepThrow cfg (p0 :: rest) start
            st t).ms).scoresByPlayer = initScoresMap (p0 :: rest) start
        ∧ (∀ v ∈ (stepThrow cfg (p0 :: rest) start st t).remaining,
            v = start)
        ∧ (stepThrow cfg (p0 :: rest) start st t).ms.currentSetIndex =
            st.ms.currentSetIndex
        ∧ (stepThrow cfg (p0 :: rest) start st t).ms.currentLegIndex =
            (currentSetOf st.ms).legs.length
        ∧ (stepThrow cfg (p0 :: rest) start st t).ms.sets.length =
            st.ms.sets.length) := by
  have hp : (p0 :: rest) ≠ ([] : List GamePlayer) := by simp
  have hshape := stepThrow_checkout_shape cfg p0 rest start st t idx ms2
    ms3 hw hidx hopen hcand hms2 hms3
  obtain ⟨hs1, hs2, hs3, hs4, hs5, hs6, hs7, hs8⟩ :=
    setCurrentLegScore_spec st.ms t.playerId 0 hI1 hI2
  have hIA1 : (setCurrentLegScore st.ms t.playerId 0).currentSetIndex <
      (setCurrentLegScore st.ms t.playerId 0).sets.length := by
    rw [hs1, hs3]
    exact hI1
  have hIA2 : (setCurrentLegScore st.ms t.playerId 0).currentLegIndex <
      (currentSetOf (setCurrentLegScore st.ms
        t.playerId 0)).legs.length := by
    rw [hs2, hs8]
    exact hI2
  obtain ⟨hl1, hl2, hl3, hl4, hl5, hl6, hl7, hl8⟩ :=
    sealCurrentLeg_spec (setCurrentLegScore st.ms t.playerId 0)
      t.playerId t.createdAt hIA1 hIA2
  have hB1 : ms2.currentSetIndex = st.ms.currentSetIndex := by
    rw [hms2, hl1, hs1]
  have hB2 : ms2.currentLegIndex = st.ms.currentLegIndex := by
    rw [hms2, hl2, hs2]
  have hB3 : ms2.sets.length = st.ms.sets.length := by
    rw [hms2, hl3, hs3]
  have hB4 : (currentSetOf ms2).legs.length =
      (currentSetOf st.ms).legs.length := by
    rw [hms2, hl8, hs8]
  have hBlegwin : (currentLegOf ms2).winnerId = some t.playerId := by
    rw [hms2, hl5]
  have hBlegfin : (currentLegOf ms2).finishedAt = some t.createdAt := by
    rw [hms2, hl5]
  have hBsetwin : (currentSetOf ms2).winnerId = none := by
    rw [hms2, hl6, hs6]
    exact hsetopen
  have hIB1 : ms2.currentSetIndex < ms2.sets.length := by
    rw [hB1, hB3]
    exact hI1
  have hIB2 : ms2.currentLegIndex < (currentSetOf ms2).legs.length := by
    rw [hB2, hB4]
    exact hI2
  obtain ⟨hx1, hx2, hx3, hx4, hx5, hx6, hx7, hx8⟩ :=
    sealCurrentSet_spec ms2 t.playerId t.createdAt hIB1
  have hC1 : ms3.currentSetIndex = st.ms.currentSetIndex := by
    rw [hms3, hx1, hB1]
  have hC2 : ms3.currentLegIndex = st.ms.currentLegIndex := by
    rw [hms3, hx2, hB2]
  have hC3 : ms3.sets.length = st.ms.sets.length := by
    rw [hms3, hx3, hB3]
  have hCsetwin : (currentSetOf ms3).winnerId = some t.playerId := by
    rw [hms3]
    exact hx6
  have hCsetfin : (currentSetOf ms3).finishedAt = some t.createdAt := by
    rw [hms3]
    exact hx7
  have hCleg : currentLegOf ms3 = currentLegOf ms2 := by
    rw [hms3]
    exact hx5
  have hIC1 : ms3.currentSetIndex < ms3.sets.length := by
    rw [hC1, hC3]
    exact hI1
  -- the set addressed by the old pointer inside ms3
  have hsel3 : nth ms3.sets st.ms.currentSetIndex defaultSet =
      currentSetOf ms3 := by
    unfold currentSetOf
    rw [hC1]
  have hleg3 : nth (currentSetOf ms3).legs st.ms.currentLegIndex
      defaultLeg = currentLegOf ms3 := by
    unfold currentLegOf
    rw [hC2]
  have hsel2 : nth ms2.sets st.ms.currentSetIndex defaultSet =
      currentSetOf ms2 := by
    unfold currentSetOf
    rw [hB1]
  have hleg2 : nth (currentSetOf ms2).legs st.ms.currentLegIndex
      defaultLeg = currentLegOf ms2 := by
    unfold currentLegOf
    rw [hB2]
  -- new-set branch shape of the advance after a sealed set
  have hSNB : startNextLegOrSet ms3 start (p0 :: rest) =
      { ms3 with sets := ms3.sets ++ [newSetAfter ms3 start (p0 :: rest)]
                 currentSetIndex :=
                   (ms3.sets ++
                     [newSetAfter ms3 start (p0 :: rest)]).length - 1
                 currentLegIndex := 0 } := by
    unfold startNextLegOrSet
    rw [show (p0 :: rest).isEmpty = false from rfl]
    simp only [Bool.false_eq_true, if_false]
    rw [if_pos (by rw [hCsetwin]; rfl)]
  -- new-leg branch shape of the advance within an open set
  have hSNC : startNextLegOrSet ms2 start (p0 :: rest) =
      { ms2 with sets := ms2.sets.set ms2.currentSetIndex
                   (extendedSet ms2 start (p0 :: rest))
                 currentLegIndex :=
                   (extendedSet ms2 start
                     (p0 :: rest)).legs.length - 1 } := by
    unfold startNextLegOrSet
    rw [show (p0 :: rest).isEmpty = false from rfl]
    simp only [Bool.false_eq_true, if_false]
    rw [if_neg (by rw [hBsetwin]; simp)]
  by_cases hLW : legsWonFor (currentSetOf ms2) t.playerId ≥
      (currentSetOf ms2).legsToWin
  · by_cases hSW : setsWonFor ms3 t.playerId ≥ ms3.setsToWin
    · -- match sealed, no advance
      have hstep : stepThrow cfg (p0 :: rest) start st t =
          { ms := ms3, remaining := st.remaining.set idx 0
            scores := updatePlayerScoreAt st.scores idx t.visitScore 0
            matchWinnerId := some t.playerId } := by
        rw [hshape, if_pos hLW, if_pos hSW]
      refine ⟨?_, fun _ => ?_, fun _ _ => hstep, fun _ hns => absurd hSW hns,
        fun hnl => absurd hLW hnl⟩
      · rw [hstep]
        show (nth (nth ms3.sets st.ms.currentSetIndex defaultSet).legs
          st.ms.currentLegIndex defaultLeg).winnerId = some t.playerId ∧
          (nth (nth ms3.sets st.ms.currentSetIndex defaultSet).legs
          st.ms.currentLegIndex defaultLeg).finishedAt = some t.createdAt
        rw [hsel3, hleg3, hCleg]
        exact ⟨hBlegwin, hBlegfin⟩
      · rw [hstep]
        show (nth ms3.sets st.ms.currentSetIndex defaultSet).winnerId =
          some t.playerId ∧
          (nth ms3.sets st.ms.currentSetIndex defaultSet).finishedAt =
          some t.createdAt
        rw [hsel3]
        exact ⟨hCsetwin, hCsetfin⟩
    · -- set sealed, new set opened
      have hstep : stepThrow cfg (p0 :: rest) start st t =
          { ms := startNextLegOrSet ms3 start (p0 :: rest)
            remaining := (st.remaining.set idx 0).map (fun _ => start)
            scores := resetScoresForNewLeg
              (updatePlayerScoreAt st.scores idx t.visitScore 0) start
            matchWinnerId := none } := by
        rw [hshape, if_pos hLW, if_neg hSW]
      have hpre : nth (startNextLegOrSet ms3 start (p0 :: rest)).sets
          st.ms.currentSetIndex defaultSet = currentSetOf ms3 := by
        rw [hSNB]
        show nth (ms3.sets ++ [newSetAfter ms3 start (p0 :: rest)])
          st.ms.currentSetIndex defaultSet = currentSetOf ms3
        rw [nth_append_left _ _ _ _ (by rw [hC3] at hIC1 ⊢; exact hC1 ▸ hIC1)]
        exact hsel3
      obtain ⟨hn1, hn2, hn3, hn4⟩ :=
        startNext_fresh ms3 start (p0 :: rest) hp hIC1
      refine ⟨?_, fun _ => ?_, fun _ hsw => absurd hsw hSW, fun _ _ => ?_,
        fun hnl => absurd hLW hnl⟩
      · rw [hstep]
        show (nth (nth (startNextLegOrSet ms3 start (p0 :: rest)).sets
          st.ms.currentSetIndex defaultSet).legs st.ms.currentLegIndex
          defaultLeg).winnerId = some t.playerId ∧
          (nth (nth (startNextLegOrSet ms3 start (p0 :: rest)).sets
          st.ms.currentSetIndex defaultSet).legs st.ms.currentLegIndex
          defaultLeg).finishedAt = some t.createdAt
        rw [hpre, hleg3, hCleg]
        exact ⟨hBlegwin, hBlegfin⟩
      · rw [hstep]
        show (nth (startNextLegOrSet ms3 start (p0 :: rest)).sets
          st.ms.currentSetIndex defaultSet).winnerId = some t.playerId ∧
          (nth (startNextLegOrSet ms3 start (p0 :: rest)).sets
          st.ms.currentSetIndex defaultSet).finishedAt = some t.createdAt
        rw [hpre]
        exact ⟨hCsetwin, hCsetfin⟩
      · rw [hstep]
        refine ⟨rfl, hn4, hn3, ?_, ?_, ?_, ?_⟩
        · intro v hv
          rw [List.mem_map] at hv
          obtain ⟨a, _, ha⟩ := hv
          exact ha.symm
        · show (startNextLegOrSet ms3 start (p0 :: rest)).currentSetIndex =
            st.ms.sets.length
          rw [hSNB]
          show (ms3.sets ++ [newSetAfter ms3 start (p0 :: rest)]).length - 1
            = st.ms.sets.length
          simp [hC3]
        · show (startNextLegOrSet ms3 start (p0 :: rest)).currentLegIndex =
            0
          rw [hSNB]
        · show (startNextLegOrSet ms3 start (p0 :: rest)).sets.length =
            st.ms.sets.length + 1
          rw [hSNB]
          show (ms3.sets ++ [newSetAfter ms3 start (p0 :: rest)]).length =
            st.ms.sets.length + 1
          simp [hC3]
  · -- leg sealed only, new leg in the same set
    have hstep : stepThrow cfg (p0 :: rest) start st t =
        { ms := startNextLegOrSet ms2 start (p0 :: rest)
          remaining := (st.remaining.set idx 0).map (fun _ => start)
          scores := resetScoresForNewLeg
            (updatePlayerScoreAt st.scores idx t.visitScore 0) start
          matchWinnerId := none } := by
      rw [hshape, if_neg hLW]
    have hext : nth (startNextLegOrSet ms2 start (p0 :: rest)).sets
        st.ms.currentSetIndex defaultSet =
        extendedSet ms2 start (p0 :: rest) := by
      rw [hSNC]
      show nth (ms2.sets.set ms2.currentSetIndex
        (extendedSet ms2 start (p0 :: rest))) st.ms.currentSetIndex
        defaultSet = extendedSet ms2 start (p0 :: rest)
      rw [← hB1]
      exact nth_set_self _ _ _ _ hIB1
    obtain ⟨hn1, hn2, hn3, hn4⟩ :=
      startNext_fresh ms2 start (p0 :: rest) hp hIB1
    refine ⟨?_, fun hlw => absurd hlw hLW, fun hlw _ => absurd hlw hLW,
      fun hlw _ => absurd hlw hLW, fun _ => ?_⟩
    · rw [hstep]
      show (nth (nth (startNextLegOrSet ms2 start (p0 :: rest)).sets
        st.ms.currentSetIndex defaultSet).legs st.ms.currentLegIndex
        defaultLeg).winnerId = some t.playerId ∧
        (nth (nth (startNextLegOrSet ms2 start (p0 :: rest)).sets
        st.ms.currentSetIndex defaultSet).legs st.ms.currentLegIndex
        defaultLeg).finishedAt = some t.createdAt
      rw [hext]
      have hlegs : nth (extendedSet ms2 start (p0 :: rest)).legs
          st.ms.currentLegIndex defaultLeg = currentLegOf ms2 := by
        unfold extendedSet
        show nth ((currentSetOf ms2).legs ++
          [freshLeg (((currentSetOf ms2).legs.length : Int) + 1) start
            (p0 :: rest)]) st.ms.currentLegIndex defaultLeg =
          currentLegOf ms2
        rw [nth_append_left _ _ _ _ (by rw [hB4]; exact hI2)]
        exact hleg2
      rw [hlegs]
      exact ⟨hBlegwin, hBlegfin⟩
    · rw [hstep]
      refine ⟨rfl, hn4, hn3, ?_, ?_, ?_, ?_⟩
      · intro v hv
        rw [List.mem_map] at hv
        obtain ⟨a, _, ha⟩ := hv
        exact ha.symm
      · show (startNextLegOrSet ms2 start (p0 :: rest)).currentSetIndex =
          st.ms.currentSetIndex
        rw [hSNC]
        exact hB1
      · show (startNextLegOrSet ms2 start (p0 :: rest)).currentLegIndex =
          (currentSetOf st.ms).legs.length
        rw [hSNC]
        show (extendedSet ms2 start (p0 :: rest)).legs.length - 1 =
          (currentSetOf st.ms).legs.length
        unfold extendedSet
        simp [hB4]
      · show (startNextLegOrSet ms2 start (p0 :: rest)).sets.length =
          st.ms.sets.length
        rw [hSNC]
        show (ms2.sets.set ms2.currentSetIndex
          (extendedSet ms2 start (p0 :: rest))).length = st.ms.sets.length
        simp [hB3]

/-- Witness for C1 at a concrete input: from the initial state of a
40-start one-leg one-set match, A's checkout of 40 seals leg 1 of set 1
with A as winner. -/
theorem c1_checkout_cascade_witness :
    (nth (nth (stepThrow exCfg40 [exA, exB] 40
        (initReplayState [exA, exB] 40 1 1)
        (exThrow "t1" 1 "A" 40)).ms.sets 0 defaultSet).legs 0
        defaultLeg).winnerId = some "A" := by
  have h := c1_checkout_cascade exCfg40 exA [exB] 40
    (initReplayState [exA, exB] 40 1 1) (exThrow "t1" 1 "A" 40) 0
    (sealCurrentLeg (setCurrentLegScore
      (initReplayState [exA, exB] 40 1 1).ms "A" 0) "A" 1)
    (sealCurrentSet (sealCurrentLeg (setCurrentLegScore
      (initReplayState [exA, exB] 40 1 1).ms "A" 0) "A" 1) "A" 1)
    (by decide) (by decide) rfl (by decide) (by decide) (by decide)
    (by decide) rfl rfl
  exact h.1.1

end DsGame
